import Mathlib

/-!
# Blast family lifecycle (Gems/Blast/Code/Source/Family/BlastFamilyImpl.cpp)

A shallow embedding of `BlastFamilyImpl`: the spawn / despawn state machine, the handling of
solver split events, the derivation of actor descriptors, and the bookkeeping of live actors.

Conventions of the embedding.

* Pointers are addresses (`Nat`); a pointer that the source tests against null is an `Option`.
* `float` quantities are rationals: every statement about them is a statement in exact arithmetic.
* The C++ member functions mutate `*this`; here they take the family state and return the new one.
* The calls the family makes on its listener and on its actor factory are appended, oldest first,
  to the `trace` field of the state, so that their number and order can be stated.
-/

namespace Blast

/-! ## Math types -/

/-- Modelled from the spec: `AZ::Vector3` (AzCore, not among the sources), three `float`
components, taken in exact arithmetic. -/
structure Vector3 where
  x : ℚ
  y : ℚ
  z : ℚ
deriving DecidableEq

namespace Vector3

/-- Modelled from the spec: `AZ::Vector3::CreateZero`. -/
def CreateZero : Vector3 := ⟨0, 0, 0⟩

/-- Modelled from the spec: componentwise sum, `operator+`. -/
def add (a b : Vector3) : Vector3 := ⟨a.x + b.x, a.y + b.y, a.z + b.z⟩

/-- Modelled from the spec: product with a scalar, `operator*(float)`. -/
def mul (a : Vector3) (k : ℚ) : Vector3 := ⟨a.x * k, a.y * k, a.z * k⟩

/-- Modelled from the spec: `AZ::Vector3::Dot`. -/
def Dot (a b : Vector3) : ℚ := a.x * b.x + a.y * b.y + a.z * b.z

/-- Modelled from the spec: `AZ::Vector3::Cross`. -/
def Cross (a b : Vector3) : Vector3 :=
  ⟨a.y * b.z - a.z * b.y, a.z * b.x - a.x * b.z, a.x * b.y - a.y * b.x⟩

end Vector3

/-- Modelled from the spec: `AZ::Quaternion` (AzCore, not among the sources). -/
structure Quaternion where
  x : ℚ
  y : ℚ
  z : ℚ
  w : ℚ
deriving DecidableEq

/-- Modelled from the spec: `AZ::Quaternion::TransformVector`, which AzCore computes as
`(2w² - 1) v + 2 (q·v) q + 2w (q × v)` with `q` the imaginary part. -/
def Quaternion.TransformVector (q : Quaternion) (v : Vector3) : Vector3 :=
  let qv : Vector3 := ⟨q.x, q.y, q.z⟩
  ((v.mul (2 * q.w * q.w - 1)).add (qv.mul (2 * qv.Dot v))).add ((qv.Cross v).mul (2 * q.w))

/-- Modelled from the spec: `AZ::Transform` (AzCore, not among the sources): a rotation, a
uniform scale and a translation. -/
structure Transform where
  m_rotation : Quaternion
  m_scale : ℚ
  m_translation : Vector3
deriving DecidableEq

namespace Transform

/-- Modelled from the spec: `AZ::Transform::GetTranslation`. -/
def GetTranslation (t : Transform) : Vector3 := t.m_translation

/-- Modelled from the spec: `AZ::Transform::GetRotation`. -/
def GetRotation (t : Transform) : Quaternion := t.m_rotation

/-- Modelled from the spec: `AZ::Transform::GetUniformScale`. -/
def GetUniformScale (t : Transform) : ℚ := t.m_scale

/-- Modelled from the spec: `AZ::Transform::MultiplyByUniformScale`, `m_scale *= scale`. -/
def MultiplyByUniformScale (t : Transform) (scale : ℚ) : Transform :=
  { t with m_scale := t.m_scale * scale }

/-- Modelled from the spec: `AZ::Transform::TransformPoint`,
`m_rotation.TransformVector(point * m_scale) + m_translation`. -/
def TransformPoint (t : Transform) (point : Vector3) : Vector3 :=
  (t.m_rotation.TransformVector (point.mul t.m_scale)).add t.m_translation

end Transform

/-! ## Handles, bodies, descriptors -/

/-- Address of a solver actor (`Nv::Blast::TkActor*`, non-null). -/
abbrev TkActor := Nat

/-- Address of a `BlastActor` (`BlastActor*`, non-null). -/
abbrev BlastActor := Nat

/-- Modelled from the spec: what the family reads from an `AzPhysics::SimulatedBody*` (the
velocities and the centre of mass are those of the `AzPhysics::RigidBody` it is cast to). -/
structure SimulatedBody where
  m_transform : Transform
  m_linearVelocity : Vector3
  m_angularVelocity : Vector3
  m_centerOfMassLocal : Vector3
deriving DecidableEq

namespace SimulatedBody

/-- Modelled from the spec: `SimulatedBody::GetTransform`. -/
def GetTransform (b : SimulatedBody) : Transform := b.m_transform

/-- Modelled from the spec: `RigidBody::GetLinearVelocity`. -/
def GetLinearVelocity (b : SimulatedBody) : Vector3 := b.m_linearVelocity

/-- Modelled from the spec: `RigidBody::GetAngularVelocity`. -/
def GetAngularVelocity (b : SimulatedBody) : Vector3 := b.m_angularVelocity

/-- Modelled from the spec: `RigidBody::GetCenterOfMassLocal`. -/
def GetCenterOfMassLocal (b : SimulatedBody) : Vector3 := b.m_centerOfMassLocal

end SimulatedBody

/-- Modelled from the spec: what the family reads through a `BlastActor*`:
`GetSimulatedBody()` (may be null) and `IsStatic()`. -/
structure BlastActorData where
  m_simulatedBody : Option SimulatedBody
  m_isStatic : Bool

/-- The `BlastActor` objects reachable from the pointers the family handles, as they are at the
time of a call. -/
abbrev ActorHeap := BlastActor → BlastActorData

/-- Modelled from the spec: the fields of `AzPhysics::RigidBodyConfiguration` that
`CalculateActorDesc` fills. -/
structure RigidBodyConfiguration where
  m_position : Vector3
  m_orientation : Quaternion
  m_ccdEnabled : Bool
  m_startSimulationEnabled : Bool
  m_initialAngularVelocity : Vector3
deriving DecidableEq

/-- Modelled from the spec: `BlastActorDesc`, the transient description of an actor to create
(`m_family`, always `this`, is left out). -/
structure BlastActorDesc where
  m_tkActor : TkActor
  m_physicsMaterialId : Nat
  m_chunkIndices : List Nat
  m_isStatic : Bool
  m_isLeafChunk : Bool
  m_entity : Nat
  m_parentCenterOfMass : Vector3
  m_parentLinearVelocity : Vector3
  m_bodyConfiguration : RigidBodyConfiguration
  m_scale : ℚ
deriving DecidableEq

/-- A call made by the family on one of its collaborators. The listener receives `*this`, of
which the contents of the tracker at the time of the call are recorded. -/
inductive Call where
  /-- The call `m_listener->OnActorCreated(*this, actor)`. -/
  | OnActorCreated (tracked : List BlastActor) (actor : BlastActor)
  /-- The call `m_listener->OnActorDestroyed(*this, actor)`. -/
  | OnActorDestroyed (tracked : List BlastActor) (actor : BlastActor)
  /-- The call `m_actorFactory->CreateActor(actorDesc)`, which returned `actor`. -/
  | CreateActor (actorDesc : BlastActorDesc) (actor : BlastActor)
  /-- The call `m_actorFactory->DestroyActor(actor)`. -/
  | DestroyActor (actor : BlastActor)
deriving DecidableEq

/-! ## Collaborators -/

/-- Modelled from the spec: the actor factory, "given an ActorDescriptor, constructs a concrete
Actor; also destroys an Actor given its handle; also answers three pure queries". The actor it
returns may depend on everything that has happened so far (the trace of earlier calls). -/
structure BlastActorFactory where
  CalculateVisibleChunks : TkActor → List Nat
  CalculateIsStatic : TkActor → List Nat → Bool
  CalculateIsLeafChunk : TkActor → List Nat → Bool
  CalculateComponents : Bool → List Nat
  CreateActor : List Call → BlastActorDesc → BlastActor

/-- Modelled from the spec: the entity provider, "given a component manifest, creates an opaque
externally-managed entity handle". -/
structure EntityProvider where
  CreateEntity : List Nat → Nat

/-- Modelled from the spec: `BlastActorConfiguration`, the two switches the descriptors copy. -/
structure BlastActorConfiguration where
  m_isCcdEnabled : Bool
  m_isSimulated : Bool

/-- Modelled from the spec: `BlastFamilyDesc`, the constructor argument: the collaborators and
parameters a family keeps unchanged for its whole life. -/
structure BlastFamilyDesc where
  m_actorFactory : BlastActorFactory
  m_entityProvider : EntityProvider
  m_physicsMaterial : Nat
  m_actorConfiguration : BlastActorConfiguration

/-- Modelled from the spec: the solver family `Nv::Blast::TkFamily`, which "provides
`getActorCount/getActors`, an event-subscription mechanism (`addListener`/`removeListener`)". -/
structure TkFamily where
  m_actors : List TkActor
  m_hasListener : Bool
deriving DecidableEq

namespace TkFamily

/-- Modelled from the spec: `TkFamily::getActorCount`. -/
def getActorCount (f : TkFamily) : Nat := f.m_actors.length

/-- Modelled from the spec: `TkFamily::getActors(buffer, bufferSize)`, the first `bufferSize`
active actors. -/
def getActors (f : TkFamily) (bufferSize : Nat) : List TkActor := f.m_actors.take bufferSize

/-- Modelled from the spec: `TkFamily::addListener`. -/
def addListener (f : TkFamily) : TkFamily := { f with m_hasListener := true }

/-- Modelled from the spec: `TkFamily::removeListener`. -/
def removeListener (f : TkFamily) : TkFamily := { f with m_hasListener := false }

end TkFamily

/-! ## ActorTracker -/

/-- Modelled from the spec: `ActorTracker` (Family/ActorTracker.h, not among the sources), "a
registry of currently-live actor handles": an `unordered_set<BlastActor*>`, kept as a list
without repetition. The order of the list stands for the unspecified order of enumeration. -/
structure ActorTracker where
  m_actors : List BlastActor
  nodup : m_actors.Nodup

instance : DecidableEq ActorTracker := fun a b =>
  decidable_of_iff (a.m_actors = b.m_actors) (by cases a; cases b; simp)

namespace ActorTracker

/-- The tracker of a newly constructed family. -/
def empty : ActorTracker := ⟨[], List.nodup_nil⟩

/-- Modelled from the spec: `ActorTracker::AddActor`, "registers a live actor"; an actor that is
already present is not added twice (insertion in a set). -/
def AddActor (t : ActorTracker) (actor : BlastActor) : ActorTracker :=
  if h : actor ∈ t.m_actors then t
  else ⟨t.m_actors ++ [actor], List.Nodup.append t.nodup (List.nodup_singleton actor)
    (by simpa using h)⟩

/-- Modelled from the spec: `ActorTracker::RemoveActor`, "unregisters (no-op-safe lookup)". -/
def RemoveActor (t : ActorTracker) (actor : BlastActor) : ActorTracker :=
  ⟨t.m_actors.erase actor, t.nodup.erase actor⟩

/-- Modelled from the spec: `ActorTracker::GetActors`, the set of tracked actors. -/
def GetActors (t : ActorTracker) : List BlastActor := t.m_actors

end ActorTracker

/-! ## The family -/

/-- The mutable state of a `BlastFamilyImpl`, and the calls it has made so far. -/
structure BlastFamilyImpl where
  m_tkFamily : TkFamily
  m_initialTransform : Transform
  m_isSpawned : Bool
  m_actorTracker : ActorTracker
  trace : List Call
deriving DecidableEq

/-- The family as the constructor leaves it: the solver family holds the one solver actor just
created, no listener is registered, nothing is tracked and `m_isSpawned` is false. The
constructor does not set `m_initialTransform`, whose value is therefore a parameter. -/
def BlastFamilyImpl.Create (actor : TkActor) (initialTransform : Transform) : BlastFamilyImpl :=
  { m_tkFamily := { m_actors := [actor], m_hasListener := false }
    m_initialTransform := initialTransform
    m_isSpawned := false
    m_actorTracker := ActorTracker.empty
    trace := [] }

/-! ## Solver events -/

/-- Modelled from the spec: `Nv::Blast::TkSplitEvent`: the user data of the parent (a `void*`,
null or the address of a `BlastActor`) and the array `children` of `numChildren` solver actors,
each of which may be null. -/
structure TkSplitEvent where
  parentData_userData : Option BlastActor
  children : List (Option TkActor)
deriving DecidableEq

/-- Modelled from the spec: the field `numChildren` of a split event. -/
def TkSplitEvent.numChildren (e : TkSplitEvent) : Nat := e.children.length

/-- Modelled from the spec: `Nv::Blast::TkEvent::Type`. -/
inductive TkEventType where
  | Split
  | FractureCommand
  | FractureEvent
  | JointUpdate
deriving DecidableEq

/-- Modelled from the spec: `Nv::Blast::TkEvent`: a kind and a payload, which for a split event
is a `TkSplitEvent*` that may be null. -/
structure TkEvent where
  type : TkEventType
  payload : Option TkSplitEvent
deriving DecidableEq

/-- Modelled from the spec: `TkEvent::getPayload<TkSplitEvent>()`. -/
def TkEvent.getPayload (e : TkEvent) : Option TkSplitEvent := e.payload

/-! ## ActorStateCalculator -/

/-- `BlastFamilyImpl::CalculateActorDesc(const AZ::Transform&, TkActor*)`, lines 223-246. -/
def CalculateActorDesc (cfg : BlastFamilyDesc) (transform : Transform) (tkActor : TkActor) :
    BlastActorDesc :=
  let configuration : RigidBodyConfiguration :=
    { m_position := transform.GetTranslation
      m_orientation := transform.GetRotation
      m_ccdEnabled := cfg.m_actorConfiguration.m_isCcdEnabled
      m_startSimulationEnabled := cfg.m_actorConfiguration.m_isSimulated
      m_initialAngularVelocity := Vector3.CreateZero }
  let chunkIndices := cfg.m_actorFactory.CalculateVisibleChunks tkActor
  let isStatic := cfg.m_actorFactory.CalculateIsStatic tkActor chunkIndices
  { m_tkActor := tkActor
    m_physicsMaterialId := cfg.m_physicsMaterial
    m_chunkIndices := chunkIndices
    m_isStatic := isStatic
    m_isLeafChunk := cfg.m_actorFactory.CalculateIsLeafChunk tkActor chunkIndices
    m_entity := cfg.m_entityProvider.CreateEntity (cfg.m_actorFactory.CalculateComponents isStatic)
    m_parentCenterOfMass := transform.GetTranslation
    m_parentLinearVelocity := Vector3.CreateZero
    m_bodyConfiguration := configuration
    m_scale := transform.GetUniformScale }

/-- `BlastFamilyImpl::CalculateActorDesc(SimulatedBody*, bool, AZ::Transform, TkActor*)`, lines
200-221: the overload with a parent (Lean has no overloading, hence the longer name). -/
def CalculateActorDescFromParent (cfg : BlastFamilyDesc) (parentBody : Option SimulatedBody)
    (parentStatic : Bool) (parentTransform : Transform) (tkActor : TkActor) : BlastActorDesc :=
  let actorDesc := CalculateActorDesc cfg parentTransform tkActor
  match parentBody, parentStatic with
  | some body, false =>
    { actorDesc with
      m_bodyConfiguration :=
        { actorDesc.m_bodyConfiguration with m_initialAngularVelocity := body.GetAngularVelocity }
      m_parentCenterOfMass := parentTransform.TransformPoint body.GetCenterOfMassLocal
      m_parentLinearVelocity := body.GetLinearVelocity }
  | _, _ =>
    { actorDesc with
      m_bodyConfiguration :=
        { actorDesc.m_bodyConfiguration with m_initialAngularVelocity := Vector3.CreateZero }
      m_parentCenterOfMass := parentTransform.TransformPoint Vector3.CreateZero
      m_parentLinearVelocity := Vector3.CreateZero }

/-! ## FamilyLifecycleController -/

/-- `BlastFamilyImpl::DispatchActorCreated`, lines 291-296. -/
def DispatchActorCreated (s : BlastFamilyImpl) (actor : BlastActor) : BlastFamilyImpl :=
  { s with trace := s.trace ++ [Call.OnActorCreated s.m_actorTracker.GetActors actor] }

/-- `BlastFamilyImpl::DispatchActorDestroyed`, lines 298-303. -/
def DispatchActorDestroyed (s : BlastFamilyImpl) (actor : BlastActor) : BlastFamilyImpl :=
  { s with trace := s.trace ++ [Call.OnActorDestroyed s.m_actorTracker.GetActors actor] }

/-- One turn of the loop of `CreateActors`: create through the factory, register, notify. -/
def CreateActorsStep (cfg : BlastFamilyDesc) (s : BlastFamilyImpl) (actorDesc : BlastActorDesc) :
    BlastFamilyImpl :=
  let actor := cfg.m_actorFactory.CreateActor s.trace actorDesc
  let s1 := { s with trace := s.trace ++ [Call.CreateActor actorDesc actor] }
  let s2 := { s1 with m_actorTracker := s1.m_actorTracker.AddActor actor }
  DispatchActorCreated s2 actor

/-- `BlastFamilyImpl::CreateActors`, lines 248-258. -/
def CreateActors (cfg : BlastFamilyDesc) (s : BlastFamilyImpl) (actorDescs : List BlastActorDesc) :
    BlastFamilyImpl :=
  actorDescs.foldl (CreateActorsStep cfg) s

/-- One turn of the loop of `DestroyActors`: unregister, notify, release through the factory. -/
def DestroyActorsStep (s : BlastFamilyImpl) (actor : BlastActor) : BlastFamilyImpl :=
  let s1 := { s with m_actorTracker := s.m_actorTracker.RemoveActor actor }
  let s2 := DispatchActorDestroyed s1 actor
  { s2 with trace := s2.trace ++ [Call.DestroyActor actor] }

/-- `BlastFamilyImpl::DestroyActors`, lines 260-270. The argument is the enumeration of an
`unordered_set<BlastActor*>`. -/
def DestroyActors (s : BlastFamilyImpl) (actors : List BlastActor) : BlastFamilyImpl :=
  actors.foldl DestroyActorsStep s

/-- `BlastFamilyImpl::DestroyActor`, lines 272-289; `none` is the null pointer. -/
def DestroyActor (s : BlastFamilyImpl) (blastActor : Option BlastActor) : BlastFamilyImpl :=
  match blastActor with
  | none => s
  | some actor =>
    if actor ∉ s.m_actorTracker.GetActors then s
    else DestroyActors s [actor]

/-- `BlastFamilyImpl::CalculateActorsDescFromFamily`, lines 305-321. -/
def CalculateActorsDescFromFamily (cfg : BlastFamilyDesc) (s : BlastFamilyImpl)
    (transform : Transform) : List BlastActorDesc :=
  let actorCount := s.m_tkFamily.getActorCount
  let initialTkActors := s.m_tkFamily.getActors actorCount
  initialTkActors.foldl
    (fun initialActors tkActor => initialActors ++ [CalculateActorDesc cfg transform tkActor]) []

/-- `BlastFamilyImpl::Spawn`, lines 86-102: the returned flag and the new state. -/
def Spawn (cfg : BlastFamilyDesc) (s : BlastFamilyImpl) (transform : Transform) :
    Bool × BlastFamilyImpl :=
  if s.m_isSpawned then (false, s)
  else
    let s1 := { s with m_initialTransform := transform }
    let s2 := { s1 with m_tkFamily := s1.m_tkFamily.addListener }
    let s3 := CreateActors cfg s2 (CalculateActorsDescFromFamily cfg s2 transform)
    (true, { s3 with m_isSpawned := true })

/-- `BlastFamilyImpl::Despawn`, lines 104-118. -/
def Despawn (s : BlastFamilyImpl) : BlastFamilyImpl :=
  if !s.m_isSpawned then s
  else
    let toDelete := s.m_actorTracker.GetActors
    let s1 := DestroyActors s toDelete
    { s1 with m_tkFamily := s1.m_tkFamily.removeListener, m_isSpawned := false }

/-- One turn of the loop over the children in `HandleSplitEvent`, lines 173-195. -/
def HandleSplitEventChild (cfg : BlastFamilyDesc) (s : BlastFamilyImpl)
    (parentBody : Option SimulatedBody) (parentStatic : Bool)
    (newActorsDesc : List BlastActorDesc) (tkActorChild : Option TkActor) : List BlastActorDesc :=
  match tkActorChild with
  | none => newActorsDesc
  | some tkActorChild =>
    let parentTransform : Transform :=
      match parentBody with
      | some body =>
        body.GetTransform.MultiplyByUniformScale s.m_initialTransform.GetUniformScale
      | none => s.m_initialTransform
    newActorsDesc ++
      [CalculateActorDescFromParent cfg parentBody parentStatic parentTransform tkActorChild]

/-- `BlastFamilyImpl::HandleSplitEvent`, lines 146-198: the two containers passed by reference
are taken and returned. -/
def HandleSplitEvent (cfg : BlastFamilyDesc) (heap : ActorHeap) (s : BlastFamilyImpl)
    (splitEvent : Option TkSplitEvent) (newActorsDesc : List BlastActorDesc)
    (actorsToDelete : List BlastActor) : List BlastActorDesc × List BlastActor :=
  match splitEvent with
  | none => (newActorsDesc, actorsToDelete)
  | some splitEvent =>
    match splitEvent.parentData_userData with
    | none => (newActorsDesc, actorsToDelete)
    | some parentActor =>
      let parentBody := (heap parentActor).m_simulatedBody
      let parentStatic := (heap parentActor).m_isStatic
      let newActorsDesc :=
        splitEvent.children.foldl (HandleSplitEventChild cfg s parentBody parentStatic)
          newActorsDesc
      (newActorsDesc,
        if parentActor ∈ actorsToDelete then actorsToDelete else actorsToDelete ++ [parentActor])

/-- One turn of the loop of `HandleEvents`, lines 126-142. -/
def HandleEvent (cfg : BlastFamilyDesc) (heap : ActorHeap) (s : BlastFamilyImpl)
    (event : TkEvent) : BlastFamilyImpl :=
  match event.type with
  | TkEventType.Split =>
    let r := HandleSplitEvent cfg heap s event.getPayload [] []
    let s1 := DestroyActors s r.2
    CreateActors cfg s1 r.1
  | _ => s

/-- `BlastFamilyImpl::HandleEvents`, lines 120-144. -/
def HandleEvents (cfg : BlastFamilyDesc) (heap : ActorHeap) (s : BlastFamilyImpl)
    (events : List TkEvent) : BlastFamilyImpl :=
  events.foldl (HandleEvent cfg heap) s

/-! ## Colours of the debug rendering -/

/-- Modelled from the spec: `AZ::Color` (AzCore, not among the sources), four `float` channels,
taken in exact arithmetic. -/
structure Color where
  m_r : ℚ
  m_g : ℚ
  m_b : ℚ
  m_a : ℚ
deriving DecidableEq

namespace Color

/-- Modelled from the spec: `AZ::Color::GetR`. -/
def GetR (c : Color) : ℚ := c.m_r

/-- Modelled from the spec: `AZ::Color::GetG`. -/
def GetG (c : Color) : ℚ := c.m_g

/-- Modelled from the spec: `AZ::Color::GetB`. -/
def GetB (c : Color) : ℚ := c.m_b

/-- Modelled from the spec: `AZ::Color::GetA`. -/
def GetA (c : Color) : ℚ := c.m_a

end Color

/-- `MixColors`, lines 323-328. -/
def MixColors (color1 color2 : Color) (ratio : ℚ) : Color :=
  { m_r := color1.GetR * (1 - ratio) + color2.GetR * ratio
    m_g := color1.GetG * (1 - ratio) + color2.GetG * ratio
    m_b := color1.GetB * (1 - ratio) + color2.GetB * ratio
    m_a := color1.GetA * (1 - ratio) + color2.GetA * ratio }

/-- `bondHealthColor`, lines 330-338; the constant `0.5` is the rational `1 / 2`. -/
def bondHealthColor (healthFraction : ℚ) : Color :=
  let bondHealthyColor : Color := ⟨0, 1, 0, 1⟩
  let bondMidColor : Color := ⟨1, 1, 0, 1⟩
  let bondBrokenColor : Color := ⟨1, 0, 0, 1⟩
  if healthFraction < 1 / 2 then MixColors bondBrokenColor bondMidColor (2 * healthFraction)
  else MixColors bondMidColor bondHealthyColor (2 * healthFraction - 1)

/-! ## Reading a trace -/

/-- The actors of the `OnActorCreated` notifications of a trace, oldest first. -/
def notifiedCreated (tr : List Call) : List BlastActor :=
  tr.filterMap fun c =>
    match c with
    | Call.OnActorCreated _ actor => some actor
    | _ => none

/-- The actors of the `OnActorDestroyed` notifications of a trace, oldest first. -/
def notifiedDestroyed (tr : List Call) : List BlastActor :=
  tr.filterMap fun c =>
    match c with
    | Call.OnActorDestroyed _ actor => some actor
    | _ => none

/-- The descriptors handed to the factory and the actors it returned, oldest first. -/
def factoryCreated (tr : List Call) : List (BlastActorDesc × BlastActor) :=
  tr.filterMap fun c =>
    match c with
    | Call.CreateActor actorDesc actor => some (actorDesc, actor)
    | _ => none

/-- The actors the factory was asked to destroy, oldest first. -/
def factoryDestroyed (tr : List Call) : List BlastActor :=
  tr.filterMap fun c =>
    match c with
    | Call.DestroyActor actor => some actor
    | _ => none

/-- The calls made while the family went from state `s` to state `s'`: what `s'.trace` holds
beyond the length of `s.trace`. -/
def callsSince (s s' : BlastFamilyImpl) : List Call :=
  s'.trace.drop s.trace.length

/-- In a list of calls every destruction notification comes before every creation
notification: nothing that follows an `OnActorCreated` is an `OnActorDestroyed`. -/
def DestroysPrecedeCreates (calls : List Call) : Prop :=
  ∀ (pre post : List Call) (tracked : List BlastActor) (actor : BlastActor),
    calls = pre ++ Call.OnActorCreated tracked actor :: post → notifiedDestroyed post = []

/-- The factory returns fresh distinct actors: never an address that it has returned before. -/
def FreshFactory (cfg : BlastFamilyDesc) : Prop :=
  ∀ (tr : List Call) (actorDesc : BlastActorDesc),
    cfg.m_actorFactory.CreateActor tr actorDesc ∉ (factoryCreated tr).map Prod.snd

/-- The factory returns fresh distinct actors in the full sense: never an address that it has
returned before, and never an address for which the family has already notified a
destruction. -/
def FreshDistinctFactory (cfg : BlastFamilyDesc) : Prop :=
  FreshFactory cfg ∧
  ∀ (tr : List Call) (actorDesc : BlastActorDesc),
    cfg.m_actorFactory.CreateActor tr actorDesc ∉ notifiedDestroyed tr

/-! ## Sequences of calls on a family -/

/-- A call on the public interface of the family. `Spawn` comes with the solver actors that are
active in the solver family at the time of the call, which the solver may have changed since
the previous call. -/
inductive Op where
  | Spawn (tkActors : List TkActor) (transform : Transform)
  | Despawn
  | DestroyActor (blastActor : Option BlastActor)
  | HandleEvents (heap : ActorHeap) (events : List TkEvent)

/-- The state after one call. -/
def Op.apply (cfg : BlastFamilyDesc) (s : BlastFamilyImpl) : Op → BlastFamilyImpl
  | Op.Spawn tkActors transform =>
    (Blast.Spawn cfg { s with m_tkFamily := { s.m_tkFamily with m_actors := tkActors } }
      transform).2
  | Op.Despawn => Blast.Despawn s
  | Op.DestroyActor blastActor => Blast.DestroyActor s blastActor
  | Op.HandleEvents heap events => Blast.HandleEvents cfg heap s events

/-- The state after a sequence of calls. -/
def run (cfg : BlastFamilyDesc) (s : BlastFamilyImpl) (ops : List Op) : BlastFamilyImpl :=
  ops.foldl (Op.apply cfg) s

/-- The parent that a split event names, if the event has a payload with parent user data, is
registered in the tracker of `s`. -/
def parentTracked (s : BlastFamilyImpl) (e : TkEvent) : Bool :=
  match e.type, e.getPayload with
  | TkEventType.Split, some ev =>
    match ev.parentData_userData with
    | some P => decide (P ∈ s.m_actorTracker.GetActors)
    | none => true
  | _, _ => true

/-- Every event of a batch names a parent that is tracked when that event is processed. -/
def parentsTracked (cfg : BlastFamilyDesc) (heap : ActorHeap) :
    BlastFamilyImpl → List TkEvent → Bool
  | _, [] => true
  | s, e :: es => parentTracked s e && parentsTracked cfg heap (HandleEvent cfg heap s e) es

/-- In a sequence of calls started in `s`, every batch handed to `HandleEvents` satisfies
`parentsTracked` in the state in which it arrives. -/
def opsParentsTracked (cfg : BlastFamilyDesc) : BlastFamilyImpl → List Op → Bool
  | _, [] => true
  | s, op :: ops =>
    (match op with
      | Op.HandleEvents heap events => parentsTracked cfg heap s events
      | _ => true) && opsParentsTracked cfg (op.apply cfg s) ops

/-- Bookkeeping invariant of a family served by a factory of fresh actors: tracked actors and
actors notified as destroyed were returned by the factory, no actor is notified as destroyed
twice, and no tracked actor has been notified as destroyed. -/
structure Consistent (s : BlastFamilyImpl) : Prop where
  tracked_created : ∀ a ∈ s.m_actorTracker.m_actors, a ∈ (factoryCreated s.trace).map Prod.snd
  destroyed_nodup : (notifiedDestroyed s.trace).Nodup
  tracked_not_destroyed : ∀ a ∈ s.m_actorTracker.m_actors, a ∉ notifiedDestroyed s.trace
  destroyed_created : ∀ a ∈ notifiedDestroyed s.trace, a ∈ (factoryCreated s.trace).map Prod.snd

/-- Every creation is accounted for: the creation notifications are those of the actors the
factory returned, in the same order, and an actor notified as created is either tracked or
notified as destroyed. -/
structure Accounted (s : BlastFamilyImpl) : Prop where
  notified_created :
    notifiedCreated s.trace = (factoryCreated s.trace).map Prod.snd
  created_accounted :
    ∀ a ∈ notifiedCreated s.trace, a ∈ s.m_actorTracker.m_actors ∨ a ∈ notifiedDestroyed s.trace

/-- In a sequence of calls started in `s`, `HandleEvents` is only called in a state in which the
family is spawned, the only time at which it listens to the solver family. -/
def eventsWhileSpawned (cfg : BlastFamilyDesc) : BlastFamilyImpl → List Op → Bool
  | _, [] => true
  | s, op :: ops =>
    (match op with
      | Op.HandleEvents _ _ => s.m_isSpawned
      | _ => true) && eventsWhileSpawned cfg (op.apply cfg s) ops

/-! ## Sample collaborators and states, used to instantiate the theorems -/

/-- A factory that hands out, at each call, an address above every address it returned before. -/
def sampleFactory : BlastActorFactory :=
  { CalculateVisibleChunks := fun tkActor => [tkActor]
    CalculateIsStatic := fun _ chunkIndices => chunkIndices.length == 0
    CalculateIsLeafChunk := fun _ chunkIndices => chunkIndices.length == 1
    CalculateComponents := fun isStatic => if isStatic then [1] else [2]
    CreateActor := fun tr _ => 100 + ((factoryCreated tr).map Prod.snd).sum }

/-- A factory that hands out again the address released just before, as an allocator may, and a
new address otherwise. -/
def reusingFactory : BlastActorFactory :=
  { sampleFactory with
    CreateActor := fun tr actorDesc =>
      match tr.getLast? with
      | some (Call.DestroyActor actor) => actor
      | _ => sampleFactory.CreateActor tr actorDesc }

/-- Sample constructor argument around `sampleFactory`. -/
def sampleCfg : BlastFamilyDesc :=
  { m_actorFactory := sampleFactory
    m_entityProvider := { CreateEntity := fun components => components.length }
    m_physicsMaterial := 7
    m_actorConfiguration := { m_isCcdEnabled := true, m_isSimulated := true } }

/-- Sample constructor argument around `reusingFactory`. -/
def reusingCfg : BlastFamilyDesc :=
  { sampleCfg with m_actorFactory := reusingFactory }

/-- A factory that hands out, at each call, an address above every address it returned before
and above every address already notified as destroyed. -/
def freshFactory : BlastActorFactory :=
  { sampleFactory with
    CreateActor := fun tr _ =>
      100 + ((factoryCreated tr).map Prod.snd).sum + (notifiedDestroyed tr).sum }

/-- Sample constructor argument around `freshFactory`. -/
def freshCfg : BlastFamilyDesc :=
  { sampleCfg with m_actorFactory := freshFactory }

/-- A transform with no rotation, uniform scale `scale` and translation `(x, 0, 0)`. -/
def sampleTransform (scale x : ℚ) : Transform :=
  { m_rotation := ⟨0, 0, 0, 1⟩, m_scale := scale, m_translation := ⟨x, 0, 0⟩ }

/-- A newly constructed family around the solver actor `1`. -/
def sampleFamily : BlastFamilyImpl :=
  BlastFamilyImpl.Create 1 (sampleTransform 1 0)

/-- The sample family after `Spawn` with uniform scale `2`. -/
def sampleSpawned : BlastFamilyImpl :=
  (Spawn sampleCfg sampleFamily (sampleTransform 2 5)).2

/-- The family of `reusingCfg` after `Spawn`: it tracks the single actor `100`. -/
def reusingSpawned : BlastFamilyImpl :=
  (Spawn reusingCfg sampleFamily (sampleTransform 2 5)).2

/-- A split event with a payload, of parent user data `parent` and of the given children. -/
def sampleSplit (parent : Option BlastActor) (children : List (Option TkActor)) : TkEvent :=
  { type := TkEventType.Split
    payload := some { parentData_userData := parent, children := children } }

/-- A heap in which every actor has a moving body of unit scale. -/
def sampleHeap : ActorHeap := fun _ =>
  { m_simulatedBody := some
      { m_transform := sampleTransform 1 3
        m_linearVelocity := ⟨1, 2, 3⟩
        m_angularVelocity := ⟨4, 5, 6⟩
        m_centerOfMassLocal := ⟨1, 1, 1⟩ }
    m_isStatic := false }

/-- The spawned sample family after its actor `100` has split in two: it tracks the actors `200`
and `400`. -/
def sampleTwoActors : BlastFamilyImpl :=
  HandleEvents sampleCfg sampleHeap sampleSpawned
    [{ type := TkEventType.Split
       payload := some { parentData_userData := some 100, children := [some 5, some 6] } }]

/-! ## Lemmas on traces and on the tracker -/

theorem notifiedCreated_append (a b : List Call) :
    notifiedCreated (a ++ b) = notifiedCreated a ++ notifiedCreated b := by
  simp [notifiedCreated, List.filterMap_append]

theorem notifiedDestroyed_append (a b : List Call) :
    notifiedDestroyed (a ++ b) = notifiedDestroyed a ++ notifiedDestroyed b := by
  simp [notifiedDestroyed, List.filterMap_append]

theorem factoryCreated_append (a b : List Call) :
    factoryCreated (a ++ b) = factoryCreated a ++ factoryCreated b := by
  simp [factoryCreated, List.filterMap_append]

theorem factoryDestroyed_append (a b : List Call) :
    factoryDestroyed (a ++ b) = factoryDestroyed a ++ factoryDestroyed b := by
  simp [factoryDestroyed, List.filterMap_append]

theorem ActorTracker.mem_AddActor (t : ActorTracker) (actor a : BlastActor) :
    a ∈ (t.AddActor actor).m_actors ↔ a ∈ t.m_actors ∨ a = actor := by
  unfold ActorTracker.AddActor
  split
  · constructor
    · intro h; exact Or.inl h
    · rintro (h | rfl)
      · exact h
      · assumption
  · simp

theorem ActorTracker.AddActor_of_not_mem (t : ActorTracker) (actor : BlastActor)
    (h : actor ∉ t.m_actors) : (t.AddActor actor).m_actors = t.m_actors ++ [actor] := by
  unfold ActorTracker.AddActor
  simp [h]

theorem ActorTracker.mem_RemoveActor (t : ActorTracker) (actor a : BlastActor) :
    a ∈ (t.RemoveActor actor).m_actors ↔ a ∈ t.m_actors ∧ a ≠ actor := by
  unfold ActorTracker.RemoveActor
  simp only
  rw [t.nodup.mem_erase_iff]
  tauto

theorem le_sum_of_mem_nat (l : List Nat) : ∀ a ∈ l, a ≤ l.sum := by
  induction l with
  | nil => intro a ha; cases ha
  | cons b l ih =>
    intro a ha
    rcases List.mem_cons.1 ha with rfl | h
    · simp
    · have := ih a h
      simp only [List.sum_cons]
      omega

theorem sampleCfg_fresh : FreshFactory sampleCfg := by
  intro tr actorDesc h
  have := le_sum_of_mem_nat _ _ h
  simp only [sampleCfg, sampleFactory] at this
  omega

/-! ## Lemmas on `CreateActors` -/

theorem CreateActors_cons (cfg : BlastFamilyDesc) (s : BlastFamilyImpl) (d : BlastActorDesc)
    (ds : List BlastActorDesc) :
    CreateActors cfg s (d :: ds) = CreateActors cfg (CreateActorsStep cfg s d) ds := rfl

theorem CreateActors_frame (cfg : BlastFamilyDesc) (ds : List BlastActorDesc) :
    ∀ s : BlastFamilyImpl,
      (CreateActors cfg s ds).m_isSpawned = s.m_isSpawned ∧
      (CreateActors cfg s ds).m_initialTransform = s.m_initialTransform ∧
      (CreateActors cfg s ds).m_tkFamily = s.m_tkFamily := by
  induction ds with
  | nil => intro s; exact ⟨rfl, rfl, rfl⟩
  | cons d ds ih =>
    intro s
    rw [CreateActors_cons]
    obtain ⟨h1, h2, h3⟩ := ih (CreateActorsStep cfg s d)
    exact ⟨h1, h2, h3⟩

theorem CreateActors_spec (cfg : BlastFamilyDesc) (ds : List BlastActorDesc) :
    ∀ s : BlastFamilyImpl, ∃ calls : List Call,
      (CreateActors cfg s ds).trace = s.trace ++ calls ∧
      (factoryCreated calls).map Prod.fst = ds ∧
      notifiedCreated calls = (factoryCreated calls).map Prod.snd ∧
      notifiedDestroyed calls = [] ∧
      factoryDestroyed calls = [] ∧
      (∀ a, a ∈ (CreateActors cfg s ds).m_actorTracker.m_actors ↔
        a ∈ s.m_actorTracker.m_actors ∨ a ∈ (factoryCreated calls).map Prod.snd) ∧
      (((factoryCreated calls).map Prod.snd).Nodup →
        (∀ a ∈ (factoryCreated calls).map Prod.snd, a ∉ s.m_actorTracker.m_actors) →
        (CreateActors cfg s ds).m_actorTracker.m_actors =
          s.m_actorTracker.m_actors ++ (factoryCreated calls).map Prod.snd) := by
  induction ds with
  | nil =>
    intro s
    exact ⟨[], by simp [CreateActors], rfl, rfl, rfl, rfl, by simp [CreateActors, factoryCreated],
      by simp [CreateActors, factoryCreated]⟩
  | cons d ds ih =>
    intro s
    obtain ⟨calls, htr, hds, hnc, hnd, hfd, hmem, happ⟩ := ih (CreateActorsStep cfg s d)
    refine ⟨[Call.CreateActor d (cfg.m_actorFactory.CreateActor s.trace d),
      Call.OnActorCreated
        (s.m_actorTracker.AddActor (cfg.m_actorFactory.CreateActor s.trace d)).GetActors
        (cfg.m_actorFactory.CreateActor s.trace d)] ++ calls, ?_, ?_, ?_, ?_, ?_, ?_, ?_⟩
    · rw [CreateActors_cons, htr]
      simp [CreateActorsStep, DispatchActorCreated]
    · rw [factoryCreated_append, List.map_append, hds]
      rfl
    · rw [factoryCreated_append, notifiedCreated_append, hnc, List.map_append]
      rfl
    · rw [notifiedDestroyed_append, hnd]
      rfl
    · rw [factoryDestroyed_append, hfd]
      rfl
    · intro a
      rw [CreateActors_cons, hmem a, factoryCreated_append, List.map_append, List.mem_append]
      have : (CreateActorsStep cfg s d).m_actorTracker =
          s.m_actorTracker.AddActor (cfg.m_actorFactory.CreateActor s.trace d) := rfl
      rw [this, ActorTracker.mem_AddActor]
      have hhead : List.map Prod.snd (factoryCreated
          [Call.CreateActor d (cfg.m_actorFactory.CreateActor s.trace d),
          Call.OnActorCreated
            (s.m_actorTracker.AddActor (cfg.m_actorFactory.CreateActor s.trace d)).GetActors
            (cfg.m_actorFactory.CreateActor s.trace d)]) =
          [cfg.m_actorFactory.CreateActor s.trace d] := rfl
      rw [hhead, List.mem_singleton]
      tauto
    · intro hnodup hfresh
      rw [factoryCreated_append] at hnodup hfresh
      have hstep : (CreateActorsStep cfg s d).m_actorTracker =
          s.m_actorTracker.AddActor (cfg.m_actorFactory.CreateActor s.trace d) := rfl
      have hhead : factoryCreated [Call.CreateActor d (cfg.m_actorFactory.CreateActor s.trace d),
          Call.OnActorCreated
            (s.m_actorTracker.AddActor (cfg.m_actorFactory.CreateActor s.trace d)).GetActors
            (cfg.m_actorFactory.CreateActor s.trace d)] =
          [(d, cfg.m_actorFactory.CreateActor s.trace d)] := rfl
      rw [hhead] at hnodup hfresh
      simp only [List.singleton_append, List.map_cons, List.nodup_cons, List.mem_cons,
        forall_eq_or_imp] at hnodup hfresh
      have hadd := ActorTracker.AddActor_of_not_mem s.m_actorTracker _ hfresh.1
      rw [CreateActors_cons, factoryCreated_append, hhead]
      rw [happ hnodup.2]
      · rw [hstep, hadd]
        simp
      · intro a ha
        rw [hstep, hadd]
        simp only [List.mem_append, List.mem_singleton, not_or]
        refine ⟨hfresh.2 a ha, ?_⟩
        rintro rfl
        exact hnodup.1 ha

theorem callsSince_eq (s s' : BlastFamilyImpl) (calls : List Call)
    (h : s'.trace = s.trace ++ calls) : callsSince s s' = calls := by
  simp [callsSince, h]

/-! ## Lemmas on `DestroyActors` -/

theorem DestroyActors_cons (s : BlastFamilyImpl) (a : BlastActor) (l : List BlastActor) :
    DestroyActors s (a :: l) = DestroyActors (DestroyActorsStep s a) l := rfl

theorem DestroyActors_frame (l : List BlastActor) :
    ∀ s : BlastFamilyImpl,
      (DestroyActors s l).m_isSpawned = s.m_isSpawned ∧
      (DestroyActors s l).m_initialTransform = s.m_initialTransform ∧
      (DestroyActors s l).m_tkFamily = s.m_tkFamily := by
  induction l with
  | nil => intro s; exact ⟨rfl, rfl, rfl⟩
  | cons a l ih =>
    intro s
    rw [DestroyActors_cons]
    obtain ⟨h1, h2, h3⟩ := ih (DestroyActorsStep s a)
    exact ⟨h1, h2, h3⟩

theorem DestroyActors_spec (l : List BlastActor) :
    ∀ s : BlastFamilyImpl, ∃ calls : List Call,
      (DestroyActors s l).trace = s.trace ++ calls ∧
      notifiedDestroyed calls = l ∧
      factoryDestroyed calls = l ∧
      notifiedCreated calls = [] ∧
      factoryCreated calls = [] ∧
      (∀ a, a ∈ (DestroyActors s l).m_actorTracker.m_actors ↔
        a ∈ s.m_actorTracker.m_actors ∧ a ∉ l) := by
  induction l with
  | nil =>
    intro s
    exact ⟨[], by simp [DestroyActors], rfl, rfl, rfl, rfl, by simp [DestroyActors]⟩
  | cons b l ih =>
    intro s
    obtain ⟨calls, htr, hnd, hfd, hnc, hfc, hmem⟩ := ih (DestroyActorsStep s b)
    refine ⟨[Call.OnActorDestroyed (s.m_actorTracker.RemoveActor b).GetActors b,
      Call.DestroyActor b] ++ calls, ?_, ?_, ?_, ?_, ?_, ?_⟩
    · rw [DestroyActors_cons, htr]
      simp [DestroyActorsStep, DispatchActorDestroyed]
    · rw [notifiedDestroyed_append, hnd]
      rfl
    · rw [factoryDestroyed_append, hfd]
      rfl
    · rw [notifiedCreated_append, hnc]
      rfl
    · rw [factoryCreated_append, hfc]
      rfl
    · intro a
      rw [DestroyActors_cons, hmem a]
      have : (DestroyActorsStep s b).m_actorTracker = s.m_actorTracker.RemoveActor b := rfl
      rw [this, ActorTracker.mem_RemoveActor, List.mem_cons]
      tauto

/-! ## Spawn and Despawn -/

/-- C1: `Spawn` on a family that is already spawned returns false and leaves the whole state
(initial transform, spawned flag, tracker, solver family, trace of calls) as it was, so no actor
is created and no notification dispatched; hence `Spawn(t1); Spawn(t2)` ends in the state of
`Spawn(t1)` alone, from any state. -/
theorem Spawn_spawned_noop (cfg : BlastFamilyDesc) (s : BlastFamilyImpl) (t1 t2 : Transform) :
    (s.m_isSpawned = true →
      Spawn cfg s t2 = (false, s) ∧ callsSince s (Spawn cfg s t2).2 = []) ∧
    (Spawn cfg s t1).2.m_isSpawned = true ∧
    Spawn cfg (Spawn cfg s t1).2 t2 = (false, (Spawn cfg s t1).2) := by
  have h1 : ∀ s' : BlastFamilyImpl, s'.m_isSpawned = true →
      Spawn cfg s' t2 = (false, s') ∧ callsSince s' (Spawn cfg s' t2).2 = [] := by
    intro s' h
    have : Spawn cfg s' t2 = (false, s') := by simp [Spawn, h]
    exact ⟨this, by simp [this, callsSince]⟩
  have h2 : (Spawn cfg s t1).2.m_isSpawned = true := by
    unfold Spawn
    split
    · assumption
    · rfl
  exact ⟨h1 s, h2, (h1 _ h2).1⟩

/-- Instance of C1 on the spawned sample family. -/
theorem Spawn_spawned_noop_witness :
    Spawn sampleCfg sampleSpawned (sampleTransform 3 1) = (false, sampleSpawned) :=
  ((Spawn_spawned_noop sampleCfg sampleSpawned (sampleTransform 2 5) (sampleTransform 3 1)).1
    (by decide)).1

theorem CalculateActorsDescFromFamily_eq (cfg : BlastFamilyDesc) (s : BlastFamilyImpl)
    (transform : Transform) :
    CalculateActorsDescFromFamily cfg s transform =
      s.m_tkFamily.m_actors.map (CalculateActorDesc cfg transform) := by
  have key : ∀ (l : List TkActor) (acc : List BlastActorDesc),
      l.foldl (fun initialActors tkActor =>
        initialActors ++ [CalculateActorDesc cfg transform tkActor]) acc =
        acc ++ l.map (CalculateActorDesc cfg transform) := by
    intro l
    induction l with
    | nil => intro acc; simp
    | cons a l ih => intro acc; simp [ih]
  simp [CalculateActorsDescFromFamily, TkFamily.getActors, TkFamily.getActorCount, key]

theorem Spawn_of_unspawned (cfg : BlastFamilyDesc) (s : BlastFamilyImpl) (transform : Transform)
    (h : s.m_isSpawned = false) :
    Spawn cfg s transform = (true,
      { CreateActors cfg
          { s with m_initialTransform := transform, m_tkFamily := s.m_tkFamily.addListener }
          (CalculateActorsDescFromFamily cfg
            { s with m_initialTransform := transform, m_tkFamily := s.m_tkFamily.addListener }
            transform) with m_isSpawned := true }) := by
  simp [Spawn, h]

theorem Spawn_of_spawned (cfg : BlastFamilyDesc) (s : BlastFamilyImpl) (transform : Transform)
    (h : s.m_isSpawned = true) : Spawn cfg s transform = (false, s) := by
  simp [Spawn, h]

/-- C2: `Spawn(transform)` on a family that is not spawned returns true, records `transform`,
sets the spawned flag, and hands to the factory one descriptor per solver actor of the family,
in the order of `getActors` (`getActorCount` of them); the creation notifications are those of
the actors the factory returned, in the same order, each of these actors is tracked afterwards,
and no destruction is notified. When the actors returned are pairwise distinct and none was
tracked before, the tracker is the old one followed by them: it grows by `getActorCount`. -/
theorem Spawn_unspawned (cfg : BlastFamilyDesc) (s : BlastFamilyImpl) (transform : Transform)
    (h : s.m_isSpawned = false) :
    (Spawn cfg s transform).1 = true ∧
    (Spawn cfg s transform).2.m_initialTransform = transform ∧
    (Spawn cfg s transform).2.m_isSpawned = true ∧
    (Spawn cfg s transform).2.trace = s.trace ++ callsSince s (Spawn cfg s transform).2 ∧
    (factoryCreated (callsSince s (Spawn cfg s transform).2)).map Prod.fst =
      (s.m_tkFamily.getActors s.m_tkFamily.getActorCount).map
        (CalculateActorDesc cfg transform) ∧
    (factoryCreated (callsSince s (Spawn cfg s transform).2)).map (fun p => p.1.m_tkActor) =
      s.m_tkFamily.getActors s.m_tkFamily.getActorCount ∧
    (factoryCreated (callsSince s (Spawn cfg s transform).2)).length =
      s.m_tkFamily.getActorCount ∧
    notifiedCreated (callsSince s (Spawn cfg s transform).2) =
      (factoryCreated (callsSince s (Spawn cfg s transform).2)).map Prod.snd ∧
    notifiedDestroyed (callsSince s (Spawn cfg s transform).2) = [] ∧
    (∀ a ∈ (factoryCreated (callsSince s (Spawn cfg s transform).2)).map Prod.snd,
      a ∈ (Spawn cfg s transform).2.m_actorTracker.GetActors) ∧
    (((factoryCreated (callsSince s (Spawn cfg s transform).2)).map Prod.snd).Nodup →
      (∀ a ∈ (factoryCreated (callsSince s (Spawn cfg s transform).2)).map Prod.snd,
        a ∉ s.m_actorTracker.GetActors) →
      (Spawn cfg s transform).2.m_actorTracker.GetActors =
        s.m_actorTracker.GetActors ++
          (factoryCreated (callsSince s (Spawn cfg s transform).2)).map Prod.snd ∧
      (Spawn cfg s transform).2.m_actorTracker.GetActors.length =
        s.m_actorTracker.GetActors.length + s.m_tkFamily.getActorCount) := by
  obtain ⟨calls, htr, hds, hnc, hnd, -, hmem, happ⟩ :=
    CreateActors_spec cfg
      (CalculateActorsDescFromFamily cfg
        { s with m_initialTransform := transform, m_tkFamily := s.m_tkFamily.addListener }
        transform)
      { s with m_initialTransform := transform, m_tkFamily := s.m_tkFamily.addListener }
  obtain ⟨-, hf2, -⟩ :=
    CreateActors_frame cfg
      (CalculateActorsDescFromFamily cfg
        { s with m_initialTransform := transform, m_tkFamily := s.m_tkFamily.addListener }
        transform)
      { s with m_initialTransform := transform, m_tkFamily := s.m_tkFamily.addListener }
  have hS : Spawn cfg s transform = (true,
      { CreateActors cfg
          { s with m_initialTransform := transform, m_tkFamily := s.m_tkFamily.addListener }
          (CalculateActorsDescFromFamily cfg
            { s with m_initialTransform := transform, m_tkFamily := s.m_tkFamily.addListener }
            transform) with m_isSpawned := true }) := by
    simp [Spawn, h]
  have hcalls : callsSince s (Spawn cfg s transform).2 = calls :=
    callsSince_eq _ _ _ (by rw [hS]; exact htr)
  rw [CalculateActorsDescFromFamily_eq] at hds
  have hget : s.m_tkFamily.getActors s.m_tkFamily.getActorCount = s.m_tkFamily.m_actors := by
    simp [TkFamily.getActors, TkFamily.getActorCount]
  have hds2 : (factoryCreated calls).map Prod.fst =
      s.m_tkFamily.m_actors.map (CalculateActorDesc cfg transform) := hds
  have hlen : (factoryCreated calls).length = s.m_tkFamily.m_actors.length := by
    have := congrArg List.length hds2
    simpa using this
  rw [hcalls, hget]
  refine ⟨by rw [hS], by rw [hS]; exact hf2, by rw [hS], by rw [hS]; exact htr, hds2, ?_, hlen,
    hnc, hnd, ?_, ?_⟩
  · have := congrArg (List.map BlastActorDesc.m_tkActor) hds2
    simp only [List.map_map] at this
    rw [show (fun p : BlastActorDesc × BlastActor => p.1.m_tkActor) =
      BlastActorDesc.m_tkActor ∘ Prod.fst from rfl, this]
    simp [Function.comp_def, CalculateActorDesc]
  · intro a ha
    rw [hS]
    exact (hmem a).2 (Or.inr ha)
  · intro hnodup hfresh
    have := happ hnodup hfresh
    rw [hS]
    refine ⟨this, ?_⟩
    show (CreateActors cfg _ _).m_actorTracker.m_actors.length = _
    rw [this]
    simp [ActorTracker.GetActors, TkFamily.getActorCount, hlen]

/-- Instance of C2 on the newly constructed sample family: one solver actor, one new actor. -/
theorem Spawn_unspawned_witness :
    sampleFamily.m_isSpawned = false ∧
    sampleSpawned.m_actorTracker.GetActors = [] ++ [100] ∧
    sampleSpawned.m_actorTracker.GetActors.length = 0 + 1 :=
  ⟨rfl, (Spawn_unspawned sampleCfg sampleFamily (sampleTransform 2 5) rfl).2.2.2.2.2.2.2.2.2.2
    (by decide) (by decide)⟩

/-- C3: `Despawn` on a spawned family leaves the tracker empty and the family unspawned, and
its destruction notifications are exactly the actors tracked at the call, each once (the tracker
holds no actor twice) and no other actor; it notifies no creation. On a family that is not
spawned `Despawn` returns the state unchanged, so nothing is dispatched. -/
theorem Despawn_complete (s : BlastFamilyImpl) :
    (s.m_isSpawned = true →
      (Despawn s).m_actorTracker.GetActors = [] ∧
      (Despawn s).m_isSpawned = false ∧
      (Despawn s).trace = s.trace ++ callsSince s (Despawn s) ∧
      notifiedDestroyed (callsSince s (Despawn s)) = s.m_actorTracker.GetActors ∧
      (∀ a, (notifiedDestroyed (callsSince s (Despawn s))).count a =
        if a ∈ s.m_actorTracker.GetActors then 1 else 0) ∧
      notifiedCreated (callsSince s (Despawn s)) = []) ∧
    (s.m_isSpawned = false → Despawn s = s ∧ callsSince s (Despawn s) = []) := by
  constructor
  · intro h
    obtain ⟨calls, htr, hnd, -, hnc, -, hmem⟩ := DestroyActors_spec s.m_actorTracker.GetActors s
    have hD : Despawn s =
        { DestroyActors s s.m_actorTracker.GetActors with
          m_tkFamily := (DestroyActors s s.m_actorTracker.GetActors).m_tkFamily.removeListener
          m_isSpawned := false } := by
      simp [Despawn, h]
    have hcalls : callsSince s (Despawn s) = calls :=
      callsSince_eq _ _ _ (by rw [hD]; exact htr)
    rw [hcalls]
    refine ⟨?_, by rw [hD], by rw [hD]; exact htr, hnd, ?_, hnc⟩
    · rw [hD]
      apply List.eq_nil_iff_forall_not_mem.2
      intro a ha
      exact ((hmem a).1 ha).2 ((hmem a).1 ha).1
    · intro a
      rw [hnd]
      split
      · next hin => exact List.count_eq_one_of_mem s.m_actorTracker.nodup hin
      · next hnin => exact List.count_eq_zero_of_not_mem hnin
  · intro h
    have : Despawn s = s := by simp [Despawn, h]
    exact ⟨this, by simp [this, callsSince]⟩

/-- Instance of C3 on the spawned sample family, which tracks the single actor `100`. -/
theorem Despawn_complete_witness :
    (Despawn sampleSpawned).m_actorTracker.GetActors = [] ∧
    notifiedDestroyed (callsSince sampleSpawned (Despawn sampleSpawned)) =
      sampleSpawned.m_actorTracker.GetActors ∧
    Despawn sampleFamily = sampleFamily :=
  ⟨((Despawn_complete sampleSpawned).1 (by decide)).1,
    ((Despawn_complete sampleSpawned).1 (by decide)).2.2.2.1,
    ((Despawn_complete sampleFamily).2 rfl).1⟩

/-! ## Split events -/

/-- C4, as stated, fails when the factory hands out the address of the parent again: the family
tracks `100`, the split of `100` into the solver actors `5` and `6` releases `100`, the factory
returns `100` for the first child, and `100` is tracked afterwards. -/
theorem split_parent_address_reused :
    100 ∈ reusingSpawned.m_actorTracker.GetActors ∧
    100 ∈ (HandleEvents reusingCfg sampleHeap reusingSpawned
      [sampleSplit (some 100) [some 5, some 6]]).m_actorTracker.GetActors := by
  decide

/-- C4, amended: with a factory that returns fresh distinct actors, for a split event whose
parent `P` is tracked and was created by that factory, and whose children are the two solver
actors `c1`, `c2`, `HandleEvents` on that single event makes exactly six calls: the destruction
notification and the release of `P`, then creation and creation notification of an actor for
`c1`, then the same for `c2`. Afterwards `P` is not tracked and both new actors are. -/
theorem split_two_children (cfg : BlastFamilyDesc) (heap : ActorHeap) (s : BlastFamilyImpl)
    (P : BlastActor) (c1 c2 : TkActor) (hfresh : FreshFactory cfg)
    (hP : P ∈ s.m_actorTracker.GetActors ∧ P ∈ (factoryCreated s.trace).map Prod.snd) :
    ∃ (d1 d2 : BlastActorDesc) (a1 a2 : BlastActor) (t0 t1 t2 : List BlastActor),
      callsSince s (HandleEvents cfg heap s
        [{ type := TkEventType.Split
           payload := some { parentData_userData := some P, children := [some c1, some c2] } }])
        = [Call.OnActorDestroyed t0 P, Call.DestroyActor P,
           Call.CreateActor d1 a1, Call.OnActorCreated t1 a1,
           Call.CreateActor d2 a2, Call.OnActorCreated t2 a2] ∧
      d1.m_tkActor = c1 ∧ d2.m_tkActor = c2 ∧
      P ∉ (HandleEvents cfg heap s
        [{ type := TkEventType.Split
           payload := some { parentData_userData := some P, children := [some c1, some c2] } }]
        ).m_actorTracker.GetActors ∧
      a1 ∈ (HandleEvents cfg heap s
        [{ type := TkEventType.Split
           payload := some { parentData_userData := some P, children := [some c1, some c2] } }]
        ).m_actorTracker.GetActors ∧
      a2 ∈ (HandleEvents cfg heap s
        [{ type := TkEventType.Split
           payload := some { parentData_userData := some P, children := [some c1, some c2] } }]
        ).m_actorTracker.GetActors := by
  have key : ∀ tr d, cfg.m_actorFactory.CreateActor (s.trace ++ tr) d ≠ P := by
    intro tr d h
    apply hfresh (s.trace ++ tr) d
    rw [h, factoryCreated_append, List.map_append]
    exact List.mem_append_left _ hP.2
  have hE : HandleEvents cfg heap s
      [{ type := TkEventType.Split
         payload := some { parentData_userData := some P, children := [some c1, some c2] } }] =
      CreateActorsStep cfg (CreateActorsStep cfg (DestroyActorsStep s P)
        (CalculateActorDescFromParent cfg (heap P).m_simulatedBody (heap P).m_isStatic
          (match (heap P).m_simulatedBody with
            | some body =>
              body.GetTransform.MultiplyByUniformScale s.m_initialTransform.GetUniformScale
            | none => s.m_initialTransform) c1))
        (CalculateActorDescFromParent cfg (heap P).m_simulatedBody (heap P).m_isStatic
          (match (heap P).m_simulatedBody with
            | some body =>
              body.GetTransform.MultiplyByUniformScale s.m_initialTransform.GetUniformScale
            | none => s.m_initialTransform) c2) := rfl
  rw [hE]
  refine ⟨?_, ?_, ?_, ?_, ?_, ?_, ?_, ?_, ?_, ?_, ?_, ?_, ?_⟩
  pick_goal 8
  · simp only [DestroyActorsStep, DispatchActorDestroyed, CreateActorsStep,
      DispatchActorCreated, callsSince, List.append_assoc, List.drop_left]
    exact rfl
  · cases h : (heap P).m_simulatedBody <;> cases h2 : (heap P).m_isStatic <;> rfl
  · cases h : (heap P).m_simulatedBody <;> cases h2 : (heap P).m_isStatic <;> rfl
  · simp only [CreateActorsStep, DispatchActorCreated, DestroyActorsStep, DispatchActorDestroyed,
      ActorTracker.GetActors, ActorTracker.mem_AddActor, ActorTracker.mem_RemoveActor]
    simp only [List.append_assoc]
    intro h
    rcases h with (⟨_, h⟩ | h) | h
    · exact h rfl
    · exact key _ _ h.symm
    · exact key _ _ h.symm
  · simp only [CreateActorsStep, DispatchActorCreated, DestroyActorsStep, DispatchActorDestroyed,
      ActorTracker.GetActors, ActorTracker.mem_AddActor, ActorTracker.mem_RemoveActor]
    exact Or.inl (Or.inr (by simp only [List.append_assoc]))
  · simp only [CreateActorsStep, DispatchActorCreated, DestroyActorsStep, DispatchActorDestroyed,
      ActorTracker.GetActors, ActorTracker.mem_AddActor, ActorTracker.mem_RemoveActor]
    exact Or.inr (by simp only [List.append_assoc])

/-- Instance of the amended C4: the sample family tracks `100`, which splits into the solver
actors `5` and `6`. -/
theorem split_two_children_witness :
    (100 ∈ sampleSpawned.m_actorTracker.GetActors ∧
      100 ∈ (factoryCreated sampleSpawned.trace).map Prod.snd) ∧
    ∃ (d1 d2 : BlastActorDesc) (a1 a2 : BlastActor) (t0 t1 t2 : List BlastActor),
      callsSince sampleSpawned (HandleEvents sampleCfg sampleHeap sampleSpawned
        [{ type := TkEventType.Split
           payload := some { parentData_userData := some 100, children := [some 5, some 6] } }])
        = [Call.OnActorDestroyed t0 100, Call.DestroyActor 100,
           Call.CreateActor d1 a1, Call.OnActorCreated t1 a1,
           Call.CreateActor d2 a2, Call.OnActorCreated t2 a2] ∧
      d1.m_tkActor = 5 ∧ d2.m_tkActor = 6 ∧
      100 ∉ (HandleEvents sampleCfg sampleHeap sampleSpawned
        [{ type := TkEventType.Split
           payload := some { parentData_userData := some 100, children := [some 5, some 6] } }]
        ).m_actorTracker.GetActors ∧
      a1 ∈ (HandleEvents sampleCfg sampleHeap sampleSpawned
        [{ type := TkEventType.Split
           payload := some { parentData_userData := some 100, children := [some 5, some 6] } }]
        ).m_actorTracker.GetActors ∧
      a2 ∈ (HandleEvents sampleCfg sampleHeap sampleSpawned
        [{ type := TkEventType.Split
           payload := some { parentData_userData := some 100, children := [some 5, some 6] } }]
        ).m_actorTracker.GetActors :=
  ⟨by decide, split_two_children sampleCfg sampleHeap sampleSpawned 100 5 6 sampleCfg_fresh
    (by decide)⟩

theorem HandleSplitEvent_fresh_snd (cfg : BlastFamilyDesc) (heap : ActorHeap)
    (s : BlastFamilyImpl) (splitEvent : Option TkSplitEvent) :
    (HandleSplitEvent cfg heap s splitEvent [] []).2 =
      match splitEvent with
      | some ev =>
        match ev.parentData_userData with
        | some P => [P]
        | none => []
      | none => [] := by
  cases splitEvent with
  | none => rfl
  | some ev =>
    cases h : ev.parentData_userData with
    | none => simp [HandleSplitEvent, h]
    | some P => simp [HandleSplitEvent, h]

theorem HandleEvent_of_split (cfg : BlastFamilyDesc) (heap : ActorHeap) (s : BlastFamilyImpl)
    (e : TkEvent) (h : e.type = TkEventType.Split) :
    HandleEvent cfg heap s e =
      CreateActors cfg (DestroyActors s (HandleSplitEvent cfg heap s e.getPayload [] []).2)
        (HandleSplitEvent cfg heap s e.getPayload [] []).1 := by
  simp [HandleEvent, h]

theorem HandleEvent_of_not_split (cfg : BlastFamilyDesc) (heap : ActorHeap)
    (s : BlastFamilyImpl) (e : TkEvent) (h : e.type ≠ TkEventType.Split) :
    HandleEvent cfg heap s e = s := by
  unfold HandleEvent
  cases h2 : e.type <;> simp_all

theorem HandleEvent_calls (cfg : BlastFamilyDesc) (heap : ActorHeap) (s : BlastFamilyImpl)
    (e : TkEvent) :
    ∃ dcalls ccalls : List Call,
      (HandleEvent cfg heap s e).trace = s.trace ++ (dcalls ++ ccalls) ∧
      notifiedCreated dcalls = [] ∧ factoryCreated dcalls = [] ∧
      notifiedDestroyed ccalls = [] ∧ factoryDestroyed ccalls = [] ∧
      notifiedCreated ccalls = (factoryCreated ccalls).map Prod.snd := by
  by_cases h : e.type = TkEventType.Split
  · obtain ⟨dcalls, hd, -, -, hdc, hdf, -⟩ :=
      DestroyActors_spec (HandleSplitEvent cfg heap s e.getPayload [] []).2 s
    obtain ⟨ccalls, hc, -, hcn, hcd, hcf, -, -⟩ :=
      CreateActors_spec cfg (HandleSplitEvent cfg heap s e.getPayload [] []).1
        (DestroyActors s (HandleSplitEvent cfg heap s e.getPayload [] []).2)
    refine ⟨dcalls, ccalls, ?_, hdc, hdf, hcd, hcf, hcn⟩
    rw [HandleEvent_of_split cfg heap s e h, hc, hd, List.append_assoc]
  · exact ⟨[], [], by simp [HandleEvent_of_not_split cfg heap s e h], rfl, rfl, rfl, rfl, rfl⟩

theorem HandleEvents_cons (cfg : BlastFamilyDesc) (heap : ActorHeap) (s : BlastFamilyImpl)
    (e : TkEvent) (es : List TkEvent) :
    HandleEvents cfg heap s (e :: es) = HandleEvents cfg heap (HandleEvent cfg heap s e) es := rfl

theorem HandleEvents_trace (cfg : BlastFamilyDesc) (heap : ActorHeap) (es : List TkEvent) :
    ∀ s : BlastFamilyImpl, ∃ calls, (HandleEvents cfg heap s es).trace = s.trace ++ calls := by
  induction es with
  | nil => intro s; exact ⟨[], by simp [HandleEvents]⟩
  | cons e es ih =>
    intro s
    obtain ⟨calls, h⟩ := ih (HandleEvent cfg heap s e)
    obtain ⟨d, c, h2, -⟩ := HandleEvent_calls cfg heap s e
    exact ⟨(d ++ c) ++ calls, by rw [HandleEvents_cons, h, h2, List.append_assoc]⟩

theorem destroysPrecedeCreates_append (d c : List Call) (hd : notifiedCreated d = [])
    (hc : notifiedDestroyed c = []) : DestroysPrecedeCreates (d ++ c) := by
  intro pre post tracked actor h
  have hpost : ∀ l : List Call, notifiedDestroyed (l ++ Call.OnActorCreated tracked actor :: post)
      = [] → notifiedDestroyed post = [] := by
    intro l hl
    rw [notifiedDestroyed_append] at hl
    have := (List.append_eq_nil.1 hl).2
    simpa [notifiedDestroyed] using this
  rcases List.append_eq_append_iff.1 h with ⟨a, -, h2⟩ | ⟨c2, h1, h2⟩
  · exact hpost a (h2 ▸ hc)
  · cases c2 with
    | nil =>
      apply hpost []
      simp only [List.nil_append] at h2 ⊢
      rw [h2]; exact hc
    | cons x c2 =>
      simp only [List.cons_append, List.cons.injEq] at h2
      rw [h1, ← h2.1, notifiedCreated_append] at hd
      simp [notifiedCreated] at hd

/-- C5, as stated, fails on a batch of two split events: the family tracks `200` and `400`,
which both split in the same batch; the actor `800` created for the child of `200` is notified
as created before the destruction of `400` is notified. -/
theorem batch_interleaves_creates_and_destroys :
    sampleTwoActors.m_actorTracker.GetActors = [200, 400] ∧
    notifiedCreated ((callsSince sampleTwoActors
      (HandleEvents sampleCfg sampleHeap sampleTwoActors
        [sampleSplit (some 200) [some 7], sampleSplit (some 400) [some 8]])).take 4) = [800] ∧
    notifiedDestroyed ((callsSince sampleTwoActors
      (HandleEvents sampleCfg sampleHeap sampleTwoActors
        [sampleSplit (some 200) [some 7], sampleSplit (some 400) [some 8]])).drop 4) = [400] ∧
    ¬ DestroysPrecedeCreates (callsSince sampleTwoActors
      (HandleEvents sampleCfg sampleHeap sampleTwoActors
        [sampleSplit (some 200) [some 7], sampleSplit (some 400) [some 8]])) := by
  refine ⟨by decide, by decide, by decide, ?_⟩
  intro h
  have h2 := h
    ((callsSince sampleTwoActors (HandleEvents sampleCfg sampleHeap sampleTwoActors
      [sampleSplit (some 200) [some 7], sampleSplit (some 400) [some 8]])).take 3)
    ((callsSince sampleTwoActors (HandleEvents sampleCfg sampleHeap sampleTwoActors
      [sampleSplit (some 200) [some 7], sampleSplit (some 400) [some 8]])).drop 4)
    [400, 800] 800 rfl
  revert h2
  decide

/-- C5, amended: the ordering holds event by event. In the calls `HandleEvents` makes for one
event every `OnActorDestroyed` precedes every `OnActorCreated`; a batch is processed event after
event, the calls for the first event coming before all the calls for the rest of the batch. -/
theorem HandleEvents_destroys_precede_creates_per_event (cfg : BlastFamilyDesc)
    (heap : ActorHeap) (s : BlastFamilyImpl) (e : TkEvent) (es : List TkEvent) :
    DestroysPrecedeCreates (callsSince s (HandleEvents cfg heap s [e])) ∧
    callsSince s (HandleEvents cfg heap s (e :: es)) =
      callsSince s (HandleEvents cfg heap s [e]) ++
        callsSince (HandleEvents cfg heap s [e])
          (HandleEvents cfg heap (HandleEvents cfg heap s [e]) es) := by
  obtain ⟨d, c, htr, hd, -, hc, -, -⟩ := HandleEvent_calls cfg heap s e
  have h1 : HandleEvents cfg heap s [e] = HandleEvent cfg heap s e := rfl
  obtain ⟨calls, hcalls⟩ := HandleEvents_trace cfg heap es (HandleEvent cfg heap s e)
  rw [h1, callsSince_eq _ _ _ htr, callsSince_eq _ _ _ hcalls]
  refine ⟨destroysPrecedeCreates_append d c hd hc, ?_⟩
  apply callsSince_eq
  rw [HandleEvents_cons, hcalls, htr, List.append_assoc]

/-! ## Descriptors of the children of a split -/

theorem foldl_HandleSplitEventChild (cfg : BlastFamilyDesc) (s : BlastFamilyImpl)
    (parentBody : Option SimulatedBody) (parentStatic : Bool) (children : List (Option TkActor)) :
    ∀ acc : List BlastActorDesc,
      children.foldl (HandleSplitEventChild cfg s parentBody parentStatic) acc =
        acc ++ children.reduceOption.map (fun c =>
          CalculateActorDescFromParent cfg parentBody parentStatic
            (match parentBody with
              | some body =>
                body.GetTransform.MultiplyByUniformScale s.m_initialTransform.GetUniformScale
              | none => s.m_initialTransform) c) := by
  induction children with
  | nil => intro acc; simp
  | cons c cs ih =>
    intro acc
    cases c with
    | none => simp [HandleSplitEventChild, ih, List.reduceOption_cons_of_none]
    | some c => simp [HandleSplitEventChild, ih, List.reduceOption_cons_of_some]

theorem CalculateActorDescFromParent_tkActor (cfg : BlastFamilyDesc)
    (parentBody : Option SimulatedBody) (parentStatic : Bool) (parentTransform : Transform)
    (tkActor : TkActor) :
    (CalculateActorDescFromParent cfg parentBody parentStatic parentTransform tkActor).m_tkActor
      = tkActor := by
  cases parentBody <;> cases parentStatic <;> rfl

theorem CalculateActorDescFromParent_scale (cfg : BlastFamilyDesc)
    (parentBody : Option SimulatedBody) (parentStatic : Bool) (parentTransform : Transform)
    (tkActor : TkActor) :
    (CalculateActorDescFromParent cfg parentBody parentStatic parentTransform tkActor).m_scale
      = parentTransform.GetUniformScale := by
  cases parentBody <;> cases parentStatic <;> rfl

theorem HandleSplitEvent_fst (cfg : BlastFamilyDesc) (heap : ActorHeap) (s : BlastFamilyImpl)
    (ev : TkSplitEvent) (P : BlastActor) (newActorsDesc : List BlastActorDesc)
    (actorsToDelete : List BlastActor) (h : ev.parentData_userData = some P) :
    (HandleSplitEvent cfg heap s (some ev) newActorsDesc actorsToDelete).1 =
      newActorsDesc ++ ev.children.reduceOption.map (fun c =>
        CalculateActorDescFromParent cfg (heap P).m_simulatedBody (heap P).m_isStatic
          (match (heap P).m_simulatedBody with
            | some body =>
              body.GetTransform.MultiplyByUniformScale s.m_initialTransform.GetUniformScale
            | none => s.m_initialTransform) c) := by
  simp [HandleSplitEvent, h, foldl_HandleSplitEventChild]

/-- C6: for a split event with a payload and a parent user data `P`, `HandleSplitEvent` keeps
the descriptors it was given and appends one descriptor per non-null child, in the order of
`children`, each carrying the handle of its child; null children are skipped and the children
after them are still processed. The number of new descriptors is the number of non-null entries
of `children`. -/
theorem HandleSplitEvent_one_descriptor_per_child (cfg : BlastFamilyDesc) (heap : ActorHeap)
    (s : BlastFamilyImpl) (ev : TkSplitEvent) (P : BlastActor)
    (newActorsDesc : List BlastActorDesc) (actorsToDelete : List BlastActor)
    (h : ev.parentData_userData = some P) :
    (HandleSplitEvent cfg heap s (some ev) newActorsDesc actorsToDelete).1.take
      newActorsDesc.length = newActorsDesc ∧
    ((HandleSplitEvent cfg heap s (some ev) newActorsDesc actorsToDelete).1.drop
      newActorsDesc.length).map BlastActorDesc.m_tkActor = ev.children.reduceOption ∧
    (HandleSplitEvent cfg heap s (some ev) newActorsDesc actorsToDelete).1.length =
      newActorsDesc.length + (ev.children.take ev.numChildren).countP Option.isSome := by
  rw [HandleSplitEvent_fst cfg heap s ev P newActorsDesc actorsToDelete h]
  refine ⟨by simp, ?_, ?_⟩
  · simp [Function.comp_def, CalculateActorDescFromParent_tkActor]
  · have hlen : ∀ l : List (Option TkActor), l.reduceOption.length = l.countP Option.isSome := by
      intro l
      induction l with
      | nil => rfl
      | cons c cs ih => cases c <;> simp [List.reduceOption_cons_of_none,
          List.reduceOption_cons_of_some, ih]
    simp [TkSplitEvent.numChildren, hlen]

/-- Instance of C6: three children of which the second is null yield two descriptors, for the
first and the third child. -/
theorem HandleSplitEvent_one_descriptor_per_child_witness :
    ((HandleSplitEvent sampleCfg sampleHeap sampleSpawned
      (some { parentData_userData := some 100, children := [some 5, none, some 6] }) [] []).1.drop
        0).map BlastActorDesc.m_tkActor = [5, 6] ∧
    (HandleSplitEvent sampleCfg sampleHeap sampleSpawned
      (some { parentData_userData := some 100, children := [some 5, none, some 6] }) [] []).1.length
        = 0 + 2 :=
  ⟨(HandleSplitEvent_one_descriptor_per_child sampleCfg sampleHeap sampleSpawned
      { parentData_userData := some 100, children := [some 5, none, some 6] } 100 [] [] rfl).2.1,
    (HandleSplitEvent_one_descriptor_per_child sampleCfg sampleHeap sampleSpawned
      { parentData_userData := some 100, children := [some 5, none, some 6] } 100 [] [] rfl).2.2⟩

/-- C7: with a parent body that exists and a parent that is not static, the child descriptor
carries the linear velocity of the body as `m_parentLinearVelocity` and its angular velocity as
`m_bodyConfiguration.m_initialAngularVelocity`, unchanged. -/
theorem CalculateActorDesc_dynamic_parent (cfg : BlastFamilyDesc) (parentBody : SimulatedBody)
    (parentTransform : Transform) (tkActor : TkActor) :
    (CalculateActorDescFromParent cfg (some parentBody) false parentTransform
      tkActor).m_parentLinearVelocity = parentBody.GetLinearVelocity ∧
    (CalculateActorDescFromParent cfg (some parentBody) false parentTransform
      tkActor).m_bodyConfiguration.m_initialAngularVelocity = parentBody.GetAngularVelocity ∧
    (∀ V W : Vector3, parentBody.m_linearVelocity = V → parentBody.m_angularVelocity = W →
      (CalculateActorDescFromParent cfg (some parentBody) false parentTransform
        tkActor).m_parentLinearVelocity = V ∧
      (CalculateActorDescFromParent cfg (some parentBody) false parentTransform
        tkActor).m_bodyConfiguration.m_initialAngularVelocity = W) := by
  refine ⟨rfl, rfl, ?_⟩
  rintro V W rfl rfl
  exact ⟨rfl, rfl⟩

/-- Instance of C7 on the body of the sample heap, of velocities `(1,2,3)` and `(4,5,6)`. -/
theorem CalculateActorDesc_dynamic_parent_witness :
    (CalculateActorDescFromParent sampleCfg
      (some ⟨sampleTransform 1 3, ⟨1, 2, 3⟩, ⟨4, 5, 6⟩, ⟨1, 1, 1⟩⟩) false (sampleTransform 2 3)
        5).m_parentLinearVelocity = ⟨1, 2, 3⟩ ∧
    (CalculateActorDescFromParent sampleCfg
      (some ⟨sampleTransform 1 3, ⟨1, 2, 3⟩, ⟨4, 5, 6⟩, ⟨1, 1, 1⟩⟩) false (sampleTransform 2 3)
        5).m_bodyConfiguration.m_initialAngularVelocity = ⟨4, 5, 6⟩ :=
  (CalculateActorDesc_dynamic_parent sampleCfg
    ⟨sampleTransform 1 3, ⟨1, 2, 3⟩, ⟨4, 5, 6⟩, ⟨1, 1, 1⟩⟩ (sampleTransform 2 3) 5).2.2
    ⟨1, 2, 3⟩ ⟨4, 5, 6⟩ rfl rfl

theorem Transform.TransformPoint_zero (t : Transform) :
    t.TransformPoint Vector3.CreateZero = t.GetTranslation := by
  cases t with
  | mk r sc tr =>
    cases tr
    simp [Transform.TransformPoint, Transform.GetTranslation, Quaternion.TransformVector,
      Vector3.CreateZero, Vector3.add, Vector3.mul, Vector3.Dot, Vector3.Cross]

/-- C8: with no parent body, or with a static parent (whether it has a body or not), the child
descriptor has zero parent linear velocity and zero initial angular velocity, and its parent
centre of mass is the parent transform applied to the zero vector, which in exact arithmetic is
the translation of the parent transform. -/
theorem CalculateActorDesc_static_or_no_parent (cfg : BlastFamilyDesc)
    (parentBody : Option SimulatedBody) (parentStatic : Bool) (parentTransform : Transform)
    (tkActor : TkActor) (h : parentBody = none ∨ parentStatic = true) :
    (CalculateActorDescFromParent cfg parentBody parentStatic parentTransform
      tkActor).m_parentLinearVelocity = Vector3.CreateZero ∧
    (CalculateActorDescFromParent cfg parentBody parentStatic parentTransform
      tkActor).m_bodyConfiguration.m_initialAngularVelocity = Vector3.CreateZero ∧
    (CalculateActorDescFromParent cfg parentBody parentStatic parentTransform
      tkActor).m_parentCenterOfMass = parentTransform.TransformPoint Vector3.CreateZero ∧
    (CalculateActorDescFromParent cfg parentBody parentStatic parentTransform
      tkActor).m_parentCenterOfMass = parentTransform.GetTranslation := by
  rw [← Transform.TransformPoint_zero]
  rcases h with rfl | rfl
  · cases parentStatic <;> exact ⟨rfl, rfl, rfl, rfl⟩
  · cases parentBody <;> exact ⟨rfl, rfl, rfl, rfl⟩

/-- Instance of C8: a static parent that has a moving body, and a parent without body. -/
theorem CalculateActorDesc_static_or_no_parent_witness :
    (CalculateActorDescFromParent sampleCfg (sampleHeap 100).m_simulatedBody true
      (sampleTransform 2 3) 5).m_parentCenterOfMass = ⟨3, 0, 0⟩ ∧
    (CalculateActorDescFromParent sampleCfg none false
      (sampleTransform 2 3) 5).m_parentLinearVelocity = ⟨0, 0, 0⟩ :=
  ⟨(CalculateActorDesc_static_or_no_parent sampleCfg (sampleHeap 100).m_simulatedBody true
      (sampleTransform 2 3) 5 (Or.inr rfl)).2.2.2,
    (CalculateActorDesc_static_or_no_parent sampleCfg none false
      (sampleTransform 2 3) 5 (Or.inl rfl)).1⟩

theorem HandleEvents_initialTransform (cfg : BlastFamilyDesc) (heap : ActorHeap)
    (es : List TkEvent) :
    ∀ s : BlastFamilyImpl,
      (HandleEvents cfg heap s es).m_initialTransform = s.m_initialTransform := by
  induction es with
  | nil => intro s; rfl
  | cons e es ih =>
    intro s
    rw [HandleEvents_cons, ih]
    by_cases h : e.type = TkEventType.Split
    · rw [HandleEvent_of_split cfg heap s e h, (CreateActors_frame cfg _ _).2.1,
        (DestroyActors_frame _ _).2.1]
    · rw [HandleEvent_of_not_split cfg heap s e h]

/-- C9: after `Spawn(transform)` on a family that was not spawned, and after any batch of
events handled since (whatever the generation of the parent), every descriptor that
`HandleSplitEvent` appends for a child of a parent `P` has `m_scale` equal to the uniform scale
`S` of `transform` times the uniform scale of the transform of the body of `P`, hence `S` when
that body has unit scale, and equal to `S` itself when `P` has no body. Nothing else enters:
no scale of an earlier descriptor is read. -/
theorem split_scale_applied_once (cfg : BlastFamilyDesc) (heap heap2 : ActorHeap)
    (s0 : BlastFamilyImpl) (transform : Transform) (es : List TkEvent) (ev : TkSplitEvent)
    (P : BlastActor) (newActorsDesc : List BlastActorDesc) (actorsToDelete : List BlastActor)
    (h0 : s0.m_isSpawned = false) (hP : ev.parentData_userData = some P) :
    ∀ d ∈ (HandleSplitEvent cfg heap2 (HandleEvents cfg heap (Spawn cfg s0 transform).2 es)
        (some ev) newActorsDesc actorsToDelete).1.drop newActorsDesc.length,
      (∀ body, (heap2 P).m_simulatedBody = some body →
        d.m_scale = transform.GetUniformScale * body.GetTransform.GetUniformScale ∧
        (body.GetTransform.GetUniformScale = 1 → d.m_scale = transform.GetUniformScale)) ∧
      ((heap2 P).m_simulatedBody = none → d.m_scale = transform.GetUniformScale) := by
  have hS : (HandleEvents cfg heap (Spawn cfg s0 transform).2 es).m_initialTransform =
      transform := by
    rw [HandleEvents_initialTransform, Spawn_of_unspawned cfg s0 transform h0]
    exact (CreateActors_frame cfg _ _).2.1
  intro d hd
  rw [HandleSplitEvent_fst cfg heap2 _ ev P newActorsDesc actorsToDelete hP] at hd
  simp only [List.drop_left, List.mem_map] at hd
  obtain ⟨c, -, rfl⟩ := hd
  rw [CalculateActorDescFromParent_scale, hS]
  constructor
  · intro body hb
    rw [hb]
    have : (body.GetTransform.MultiplyByUniformScale transform.GetUniformScale).GetUniformScale
        = transform.GetUniformScale * body.GetTransform.GetUniformScale := by
      simp [Transform.MultiplyByUniformScale, Transform.GetUniformScale, mul_comm]
    refine ⟨this, fun h1 => ?_⟩
    rw [this, h1, mul_one]
  · intro hb
    rw [hb]

/-- Instance of C9: the sample family is spawned with uniform scale `2`; its actor `100`
splits, then the child actor `200`, whose body has unit scale, splits: the descriptor of the
grandchild has scale `2`. -/
theorem split_scale_applied_once_witness :
    (CalculateActorDescFromParent sampleCfg (sampleHeap 200).m_simulatedBody
      (sampleHeap 200).m_isStatic ((sampleTransform 1 3).MultiplyByUniformScale 2) 6).m_scale
      = (sampleTransform 2 5).GetUniformScale :=
  ((split_scale_applied_once sampleCfg sampleHeap sampleHeap sampleFamily (sampleTransform 2 5)
    [sampleSplit (some 100) [some 5]] { parentData_userData := some 200, children := [some 6] }
    200 [] [] rfl rfl
    (CalculateActorDescFromParent sampleCfg (sampleHeap 200).m_simulatedBody
      (sampleHeap 200).m_isStatic ((sampleTransform 1 3).MultiplyByUniformScale 2) 6)
    (List.Mem.head [])).1
    (⟨sampleTransform 1 3, ⟨1, 2, 3⟩, ⟨4, 5, 6⟩, ⟨1, 1, 1⟩⟩ : SimulatedBody) rfl).2 rfl

/-! ## The bookkeeping invariant -/

theorem Consistent_Create (actor : TkActor) (t : Transform) :
    Consistent (BlastFamilyImpl.Create actor t) :=
  ⟨fun _ ha => (nomatch ha), List.nodup_nil, fun _ ha => (nomatch ha),
    fun _ ha => (nomatch ha)⟩

theorem Consistent_of_eq (s s' : BlastFamilyImpl) (h : Consistent s)
    (h1 : s'.m_actorTracker = s.m_actorTracker) (h2 : s'.trace = s.trace) : Consistent s' := by
  obtain ⟨a, b, c, d⟩ := h
  constructor <;> rw [h2] <;> try rw [h1]
  all_goals assumption

theorem Consistent_CreateActorsStep (cfg : BlastFamilyDesc) (hfresh : FreshFactory cfg)
    (s : BlastFamilyImpl) (d : BlastActorDesc) (h : Consistent s) :
    Consistent (CreateActorsStep cfg s d) := by
  have htr : (CreateActorsStep cfg s d).trace = s.trace ++
      [Call.CreateActor d (cfg.m_actorFactory.CreateActor s.trace d),
        Call.OnActorCreated
          (s.m_actorTracker.AddActor (cfg.m_actorFactory.CreateActor s.trace d)).GetActors
          (cfg.m_actorFactory.CreateActor s.trace d)] := by
    simp [CreateActorsStep, DispatchActorCreated]
  have htk : (CreateActorsStep cfg s d).m_actorTracker =
      s.m_actorTracker.AddActor (cfg.m_actorFactory.CreateActor s.trace d) := rfl
  have hnd : notifiedDestroyed (CreateActorsStep cfg s d).trace = notifiedDestroyed s.trace := by
    rw [htr, notifiedDestroyed_append]
    simp [notifiedDestroyed]
  have hfc : (factoryCreated (CreateActorsStep cfg s d).trace).map Prod.snd =
      (factoryCreated s.trace).map Prod.snd ++ [cfg.m_actorFactory.CreateActor s.trace d] := by
    rw [htr, factoryCreated_append, List.map_append]
    rfl
  have hnew := hfresh s.trace d
  constructor
  · intro a ha
    rw [htk, ActorTracker.mem_AddActor] at ha
    rw [hfc, List.mem_append, List.mem_singleton]
    exact ha.imp (h.tracked_created a) id
  · rw [hnd]; exact h.destroyed_nodup
  · intro a ha
    rw [htk, ActorTracker.mem_AddActor] at ha
    rw [hnd]
    rcases ha with ha | rfl
    · exact h.tracked_not_destroyed a ha
    · exact fun hd => hnew (h.destroyed_created _ hd)
  · intro a ha
    rw [hnd] at ha
    rw [hfc]
    exact List.mem_append_left _ (h.destroyed_created a ha)

theorem Consistent_CreateActors (cfg : BlastFamilyDesc) (hfresh : FreshFactory cfg)
    (ds : List BlastActorDesc) :
    ∀ s : BlastFamilyImpl, Consistent s → Consistent (CreateActors cfg s ds) := by
  induction ds with
  | nil => intro s h; exact h
  | cons d ds ih =>
    intro s h
    rw [CreateActors_cons]
    exact ih _ (Consistent_CreateActorsStep cfg hfresh s d h)

theorem Consistent_DestroyActorsStep (s : BlastFamilyImpl) (b : BlastActor) (h : Consistent s)
    (hb : b ∈ s.m_actorTracker.m_actors) : Consistent (DestroyActorsStep s b) := by
  have htr : (DestroyActorsStep s b).trace = s.trace ++
      [Call.OnActorDestroyed (s.m_actorTracker.RemoveActor b).GetActors b,
        Call.DestroyActor b] := by
    simp [DestroyActorsStep, DispatchActorDestroyed]
  have htk : (DestroyActorsStep s b).m_actorTracker = s.m_actorTracker.RemoveActor b := rfl
  have hnd : notifiedDestroyed (DestroyActorsStep s b).trace =
      notifiedDestroyed s.trace ++ [b] := by
    rw [htr, notifiedDestroyed_append]
    rfl
  have hfc : factoryCreated (DestroyActorsStep s b).trace = factoryCreated s.trace := by
    rw [htr, factoryCreated_append]
    simp [factoryCreated]
  constructor
  · intro a ha
    rw [htk, ActorTracker.mem_RemoveActor] at ha
    rw [hfc]
    exact h.tracked_created a ha.1
  · rw [hnd]
    refine List.Nodup.append h.destroyed_nodup (List.nodup_singleton b) ?_
    intro a ha hab
    rw [List.mem_singleton] at hab
    subst hab
    exact h.tracked_not_destroyed a hb ha
  · intro a ha
    rw [htk, ActorTracker.mem_RemoveActor] at ha
    rw [hnd, List.mem_append, List.mem_singleton]
    rintro (hd | rfl)
    · exact h.tracked_not_destroyed a ha.1 hd
    · exact ha.2 rfl
  · intro a ha
    rw [hnd, List.mem_append, List.mem_singleton] at ha
    rw [hfc]
    rcases ha with ha | rfl
    · exact h.destroyed_created a ha
    · exact h.tracked_created a hb

theorem Consistent_DestroyActors (l : List BlastActor) :
    ∀ s : BlastFamilyImpl, Consistent s → l.Nodup → (∀ a ∈ l, a ∈ s.m_actorTracker.m_actors) →
      Consistent (DestroyActors s l) := by
  induction l with
  | nil => intro s h _ _; exact h
  | cons b l ih =>
    intro s h hnd hsub
    rw [DestroyActors_cons]
    refine ih _ (Consistent_DestroyActorsStep s b h (hsub b (List.mem_cons_self b l)))
      (List.nodup_cons.1 hnd).2 ?_
    intro a ha
    have htk : (DestroyActorsStep s b).m_actorTracker = s.m_actorTracker.RemoveActor b := rfl
    rw [htk, ActorTracker.mem_RemoveActor]
    refine ⟨hsub a (List.mem_cons_of_mem b ha), ?_⟩
    rintro rfl
    exact (List.nodup_cons.1 hnd).1 ha

theorem Consistent_Spawn (cfg : BlastFamilyDesc) (hfresh : FreshFactory cfg)
    (s : BlastFamilyImpl) (transform : Transform) (h : Consistent s) :
    Consistent (Spawn cfg s transform).2 := by
  by_cases hs : s.m_isSpawned = true
  · rw [show Spawn cfg s transform = (false, s) by simp [Spawn, hs]]
    exact h
  · have hS : Spawn cfg s transform = (true,
        { CreateActors cfg
            { s with m_initialTransform := transform, m_tkFamily := s.m_tkFamily.addListener }
            (CalculateActorsDescFromFamily cfg
              { s with m_initialTransform := transform, m_tkFamily := s.m_tkFamily.addListener }
              transform) with m_isSpawned := true }) := by
      simp [Spawn, hs]
    rw [hS]
    exact Consistent_of_eq
      (CreateActors cfg
        { s with m_initialTransform := transform, m_tkFamily := s.m_tkFamily.addListener }
        (CalculateActorsDescFromFamily cfg
          { s with m_initialTransform := transform, m_tkFamily := s.m_tkFamily.addListener }
          transform)) _
      (Consistent_CreateActors cfg hfresh _ _ (Consistent_of_eq s _ h rfl rfl)) rfl rfl

theorem Consistent_Despawn (s : BlastFamilyImpl) (h : Consistent s) : Consistent (Despawn s) := by
  unfold Despawn
  split
  · exact h
  · exact Consistent_of_eq (DestroyActors s s.m_actorTracker.GetActors) _
      (Consistent_DestroyActors _ s h s.m_actorTracker.nodup (fun a ha => ha)) rfl rfl

theorem Consistent_DestroyActor (s : BlastFamilyImpl) (blastActor : Option BlastActor)
    (h : Consistent s) : Consistent (DestroyActor s blastActor) := by
  unfold DestroyActor
  cases blastActor with
  | none => exact h
  | some actor =>
    simp only
    split
    · exact h
    · next hin =>
      refine Consistent_DestroyActors [actor] s h (List.nodup_singleton actor) ?_
      intro a ha
      rw [List.mem_singleton] at ha
      subst ha
      exact not_not.1 hin

theorem HandleSplitEvent_dels_tracked (cfg : BlastFamilyDesc) (heap : ActorHeap)
    (s : BlastFamilyImpl) (e : TkEvent) (hsplit : e.type = TkEventType.Split)
    (h : parentTracked s e = true) :
    (HandleSplitEvent cfg heap s e.getPayload [] []).2.Nodup ∧
    ∀ a ∈ (HandleSplitEvent cfg heap s e.getPayload [] []).2, a ∈ s.m_actorTracker.m_actors := by
  rw [HandleSplitEvent_fresh_snd]
  unfold parentTracked at h
  rw [hsplit] at h
  cases hp : e.getPayload with
  | none => simp
  | some ev =>
    rw [hp] at h
    cases hu : ev.parentData_userData with
    | none => simp [hu]
    | some P =>
      simp only [hu, decide_eq_true_eq] at h
      simpa [hu, ActorTracker.GetActors] using h

theorem Consistent_HandleEvent (cfg : BlastFamilyDesc) (hfresh : FreshFactory cfg)
    (heap : ActorHeap) (s : BlastFamilyImpl) (e : TkEvent) (h : Consistent s)
    (ht : parentTracked s e = true) : Consistent (HandleEvent cfg heap s e) := by
  by_cases hsplit : e.type = TkEventType.Split
  · rw [HandleEvent_of_split cfg heap s e hsplit]
    obtain ⟨hnd, hsub⟩ := HandleSplitEvent_dels_tracked cfg heap s e hsplit ht
    exact Consistent_CreateActors cfg hfresh _ _ (Consistent_DestroyActors _ s h hnd hsub)
  · rw [HandleEvent_of_not_split cfg heap s e hsplit]
    exact h

theorem Consistent_HandleEvents (cfg : BlastFamilyDesc) (hfresh : FreshFactory cfg)
    (heap : ActorHeap) (es : List TkEvent) :
    ∀ s : BlastFamilyImpl, Consistent s → parentsTracked cfg heap s es = true →
      Consistent (HandleEvents cfg heap s es) := by
  induction es with
  | nil => intro s h _; exact h
  | cons e es ih =>
    intro s h ht
    simp only [parentsTracked, Bool.and_eq_true] at ht
    rw [HandleEvents_cons]
    exact ih _ (Consistent_HandleEvent cfg hfresh heap s e h ht.1) ht.2

theorem Consistent_run (cfg : BlastFamilyDesc) (hfresh : FreshFactory cfg) (ops : List Op) :
    ∀ s : BlastFamilyImpl, Consistent s → opsParentsTracked cfg s ops = true →
      Consistent (run cfg s ops) := by
  induction ops with
  | nil => intro s h _; exact h
  | cons op ops ih =>
    intro s h ht
    simp only [opsParentsTracked, Bool.and_eq_true] at ht
    have hstep : Consistent (op.apply cfg s) := by
      cases op with
      | Spawn tkActors transform =>
        exact Consistent_Spawn cfg hfresh _ transform (Consistent_of_eq s _ h rfl rfl)
      | Despawn => exact Consistent_Despawn s h
      | DestroyActor blastActor => exact Consistent_DestroyActor s blastActor h
      | HandleEvents heap events => exact Consistent_HandleEvents cfg hfresh heap events s h ht.1
    exact ih _ hstep ht.2

theorem Despawn_destroyed_tracked (s : BlastFamilyImpl) :
    ∀ a ∈ notifiedDestroyed (callsSince s (Despawn s)), a ∈ s.m_actorTracker.GetActors := by
  by_cases hs : s.m_isSpawned = true
  · obtain ⟨calls, htr, hnd, -⟩ := DestroyActors_spec s.m_actorTracker.GetActors s
    have hD : (Despawn s).trace = s.trace ++ calls := by
      rw [← htr]
      simp [Despawn, hs]
    intro a ha
    rw [callsSince_eq _ _ calls hD, hnd] at ha
    exact ha
  · have hD : Despawn s = s := by
      simp [Despawn, hs]
    rw [hD]
    simp [callsSince, notifiedDestroyed]

theorem DestroyActor_destroyed_tracked (s : BlastFamilyImpl) (blastActor : Option BlastActor) :
    ∀ a ∈ notifiedDestroyed (callsSince s (DestroyActor s blastActor)),
      a ∈ s.m_actorTracker.GetActors := by
  cases blastActor with
  | none => simp [DestroyActor, callsSince, notifiedDestroyed]
  | some actor =>
    by_cases hin : actor ∈ s.m_actorTracker.GetActors
    · obtain ⟨calls, htr, hnd, -⟩ := DestroyActors_spec [actor] s
      have hD : (DestroyActor s (some actor)).trace = s.trace ++ calls := by
        rw [← htr]
        simp [DestroyActor, hin]
      intro a ha
      rw [callsSince_eq _ _ calls hD, hnd, List.mem_singleton] at ha
      subst ha
      exact hin
    · have hD : DestroyActor s (some actor) = s := by
        simp [DestroyActor, hin]
      rw [hD]
      simp [callsSince, notifiedDestroyed]

theorem HandleEvent_destroyed_tracked (cfg : BlastFamilyDesc) (heap : ActorHeap)
    (s : BlastFamilyImpl) (e : TkEvent) (ht : parentTracked s e = true) :
    ∀ a ∈ notifiedDestroyed (callsSince s (HandleEvent cfg heap s e)),
      a ∈ s.m_actorTracker.GetActors := by
  by_cases hsplit : e.type = TkEventType.Split
  · obtain ⟨-, hsub⟩ := HandleSplitEvent_dels_tracked cfg heap s e hsplit ht
    obtain ⟨dcalls, hd, hdn, -⟩ :=
      DestroyActors_spec (HandleSplitEvent cfg heap s e.getPayload [] []).2 s
    obtain ⟨ccalls, hc, -, -, hcd, -⟩ :=
      CreateActors_spec cfg (HandleSplitEvent cfg heap s e.getPayload [] []).1
        (DestroyActors s (HandleSplitEvent cfg heap s e.getPayload [] []).2)
    have htr : (HandleEvent cfg heap s e).trace = s.trace ++ (dcalls ++ ccalls) := by
      rw [HandleEvent_of_split cfg heap s e hsplit, hc, hd, List.append_assoc]
    intro a ha
    rw [callsSince_eq _ _ _ htr, notifiedDestroyed_append, hcd, List.append_nil, hdn] at ha
    exact hsub a ha
  · rw [HandleEvent_of_not_split cfg heap s e hsplit]
    simp [callsSince, notifiedDestroyed]

theorem Spawn_destroyed_nil (cfg : BlastFamilyDesc) (s : BlastFamilyImpl)
    (transform : Transform) :
    notifiedDestroyed (callsSince s (Spawn cfg s transform).2) = [] := by
  by_cases hs : s.m_isSpawned = true
  · rw [Spawn_of_spawned cfg s transform hs]
    simp [callsSince, notifiedDestroyed]
  · rw [Spawn_of_unspawned cfg s transform (by simpa using hs)]
    obtain ⟨calls, htr, -, -, hnd, -⟩ := CreateActors_spec cfg
      (CalculateActorsDescFromFamily cfg
        { s with m_initialTransform := transform, m_tkFamily := s.m_tkFamily.addListener }
        transform)
      { s with m_initialTransform := transform, m_tkFamily := s.m_tkFamily.addListener }
    rw [callsSince_eq s _ calls (by exact htr), hnd]

/-- C10, as stated, fails on inputs that the family accepts. A split event whose parent user
data is the address `7`, never registered, makes the family notify the destruction of `7`. A
batch of two split events that both name the tracked parent `100` makes it notify the
destruction of `100` twice, the second time when `100` is no longer registered. And with a
factory that hands out a released address again, spawn, despawn, spawn, despawn notifies the
destruction of the address `100` twice. -/
theorem destruction_notified_for_unregistered_parent :
    7 ∉ (run sampleCfg sampleFamily [Op.Spawn [1] (sampleTransform 2 5)]).m_actorTracker.GetActors ∧
    notifiedDestroyed (run sampleCfg sampleFamily [Op.Spawn [1] (sampleTransform 2 5),
      Op.HandleEvents sampleHeap [sampleSplit (some 7) []]]).trace = [7] ∧
    notifiedDestroyed (run sampleCfg sampleFamily [Op.Spawn [1] (sampleTransform 2 5),
      Op.HandleEvents sampleHeap
        [sampleSplit (some 100) [some 5], sampleSplit (some 100) [some 6]]]).trace
      = [100, 100] ∧
    100 ∉ (run sampleCfg sampleFamily [Op.Spawn [1] (sampleTransform 2 5),
      Op.HandleEvents sampleHeap [sampleSplit (some 100) [some 5]]]).m_actorTracker.GetActors ∧
    notifiedDestroyed (run reusingCfg sampleFamily [Op.Spawn [1] (sampleTransform 2 5),
      Op.Despawn, Op.Spawn [1] (sampleTransform 2 5), Op.Despawn]).trace = [100, 100] := by
  decide

/-- C10, amended: on a newly constructed family served by a factory that returns fresh distinct
actors, for every sequence of `Spawn`, `Despawn`, `DestroyActor` and `HandleEvents` calls in
which each split event names a parent that is tracked when the event is processed, no actor is
notified as destroyed twice. Moreover, in any state, every destruction notification dispatched
by `Despawn`, by `DestroyActor`, or by the processing of one event whose parent is tracked, is
for an actor that was tracked when that call started; `Spawn` dispatches none. -/
theorem destruction_notified_once_for_registered (cfg : BlastFamilyDesc)
    (hfresh : FreshFactory cfg) (actor : TkActor) (initialTransform : Transform)
    (ops : List Op)
    (hops : opsParentsTracked cfg (BlastFamilyImpl.Create actor initialTransform) ops = true) :
    (notifiedDestroyed (run cfg (BlastFamilyImpl.Create actor initialTransform) ops).trace).Nodup ∧
    (∀ s : BlastFamilyImpl, ∀ a ∈ notifiedDestroyed (callsSince s (Despawn s)),
      a ∈ s.m_actorTracker.GetActors) ∧
    (∀ (s : BlastFamilyImpl) (blastActor : Option BlastActor),
      ∀ a ∈ notifiedDestroyed (callsSince s (DestroyActor s blastActor)),
        a ∈ s.m_actorTracker.GetActors) ∧
    (∀ (s : BlastFamilyImpl) (heap : ActorHeap) (e : TkEvent), parentTracked s e = true →
      ∀ a ∈ notifiedDestroyed (callsSince s (HandleEvent cfg heap s e)),
        a ∈ s.m_actorTracker.GetActors) ∧
    (∀ (s : BlastFamilyImpl) (transform : Transform),
      notifiedDestroyed (callsSince s (Spawn cfg s transform).2) = []) :=
  ⟨(Consistent_run cfg hfresh ops _ (Consistent_Create actor initialTransform)
      hops).destroyed_nodup,
    Despawn_destroyed_tracked, DestroyActor_destroyed_tracked,
    fun s heap e => HandleEvent_destroyed_tracked cfg heap s e, Spawn_destroyed_nil cfg⟩

/-- The sequence of calls of the instance of C10: spawn, a split of `100` into two children, the
destruction of the child `200`, a destruction of the unknown actor `999`, despawn, spawn. -/
theorem sampleOps_parentsTracked :
    opsParentsTracked sampleCfg (BlastFamilyImpl.Create 1 (sampleTransform 1 0))
      [Op.Spawn [1] (sampleTransform 2 5),
        Op.HandleEvents sampleHeap [sampleSplit (some 100) [some 5, some 6]],
        Op.DestroyActor (some 200), Op.DestroyActor (some 999), Op.Despawn,
        Op.Spawn [5, 6] (sampleTransform 2 5)] = true := by
  decide

/-- Instance of the amended C10 on that sequence of calls. -/
theorem destruction_notified_once_for_registered_witness :
    (notifiedDestroyed (run sampleCfg (BlastFamilyImpl.Create 1 (sampleTransform 1 0))
      [Op.Spawn [1] (sampleTransform 2 5),
        Op.HandleEvents sampleHeap [sampleSplit (some 100) [some 5, some 6]],
        Op.DestroyActor (some 200), Op.DestroyActor (some 999), Op.Despawn,
        Op.Spawn [5, 6] (sampleTransform 2 5)]).trace).Nodup ∧
    ∀ a ∈ notifiedDestroyed (callsSince sampleSpawned
        (HandleEvent sampleCfg sampleHeap sampleSpawned (sampleSplit (some 100) [some 5]))),
      a ∈ sampleSpawned.m_actorTracker.GetActors :=
  ⟨(destruction_notified_once_for_registered sampleCfg sampleCfg_fresh 1 (sampleTransform 1 0)
      _ sampleOps_parentsTracked).1,
    (destruction_notified_once_for_registered sampleCfg sampleCfg_fresh 1 (sampleTransform 1 0)
      _ sampleOps_parentsTracked).2.2.2.1 sampleSpawned sampleHeap
        (sampleSplit (some 100) [some 5]) (by decide)⟩

/-! ## Order of registration and notification -/

theorem callsSince_self (s : BlastFamilyImpl) : callsSince s s = [] := by
  simp [callsSince]

theorem callsSince_append (s s1 s2 : BlastFamilyImpl) (c1 c2 : List Call)
    (h1 : s1.trace = s.trace ++ c1) (h2 : s2.trace = s1.trace ++ c2) :
    callsSince s s2 = c1 ++ c2 :=
  callsSince_eq s s2 (c1 ++ c2) (by rw [h2, h1, List.append_assoc])

theorem CreateActorsStep_trace (cfg : BlastFamilyDesc) (s : BlastFamilyImpl)
    (d : BlastActorDesc) :
    (CreateActorsStep cfg s d).trace = s.trace ++
      [Call.CreateActor d (cfg.m_actorFactory.CreateActor s.trace d),
        Call.OnActorCreated
          (s.m_actorTracker.AddActor (cfg.m_actorFactory.CreateActor s.trace d)).GetActors
          (cfg.m_actorFactory.CreateActor s.trace d)] := by
  simp [CreateActorsStep, DispatchActorCreated]

theorem DestroyActorsStep_trace (s : BlastFamilyImpl) (b : BlastActor) :
    (DestroyActorsStep s b).trace = s.trace ++
      [Call.OnActorDestroyed (s.m_actorTracker.RemoveActor b).GetActors b,
        Call.DestroyActor b] := by
  simp [DestroyActorsStep, DispatchActorDestroyed]

theorem CreateActors_created_tracked (cfg : BlastFamilyDesc) (ds : List BlastActorDesc) :
    ∀ (s : BlastFamilyImpl) (tracked : List BlastActor) (a : BlastActor),
      Call.OnActorCreated tracked a ∈ callsSince s (CreateActors cfg s ds) → a ∈ tracked := by
  induction ds with
  | nil =>
    intro s tracked a h
    rw [show CreateActors cfg s [] = s from rfl, callsSince_self] at h
    cases h
  | cons d ds ih =>
    intro s tracked a h
    obtain ⟨calls, htr, -⟩ := CreateActors_spec cfg ds (CreateActorsStep cfg s d)
    rw [CreateActors_cons,
      callsSince_append s _ _ _ calls (CreateActorsStep_trace cfg s d) htr] at h
    rcases List.mem_append.1 h with h | h
    · simp only [List.mem_cons, Call.OnActorCreated.injEq, List.mem_singleton,
        List.not_mem_nil, or_false, false_or, reduceCtorEq] at h
      obtain ⟨rfl, rfl⟩ := h
      exact (ActorTracker.mem_AddActor _ _ _).2 (Or.inr rfl)
    · rw [← callsSince_eq _ _ calls htr] at h
      exact ih _ tracked a h

/-- C12: for every list of descriptors, each `OnActorCreated` that `CreateActors` dispatches is
for an actor that the tracker, as the listener sees it in that call, already holds; the factory
receives the descriptors of the list in order, and the creation notifications are those of the
actors it returned, one per descriptor and in the same order. -/
theorem CreateActors_notifies_after_registration (cfg : BlastFamilyDesc) (s : BlastFamilyImpl)
    (actorDescs : List BlastActorDesc) :
    (∀ (tracked : List BlastActor) (a : BlastActor),
      Call.OnActorCreated tracked a ∈ callsSince s (CreateActors cfg s actorDescs) →
        a ∈ tracked) ∧
    (factoryCreated (callsSince s (CreateActors cfg s actorDescs))).map Prod.fst = actorDescs ∧
    notifiedCreated (callsSince s (CreateActors cfg s actorDescs)) =
      (factoryCreated (callsSince s (CreateActors cfg s actorDescs))).map Prod.snd ∧
    (notifiedCreated (callsSince s (CreateActors cfg s actorDescs))).length =
      actorDescs.length := by
  obtain ⟨calls, htr, hds, hnc, -⟩ := CreateActors_spec cfg actorDescs s
  refine ⟨CreateActors_created_tracked cfg actorDescs s, ?_⟩
  rw [callsSince_eq _ _ calls htr]
  refine ⟨hds, hnc, ?_⟩
  rw [hnc, ← congrArg List.length hds]
  simp

/-- Instance of C12: creating one actor from the sample family notifies the creation of `100`
with a tracker that holds `100`. -/
theorem CreateActors_notifies_after_registration_witness :
    (100 : BlastActor) ∈ [100] ∧
    notifiedCreated (callsSince sampleFamily (CreateActors sampleCfg sampleFamily
      [CalculateActorDesc sampleCfg (sampleTransform 2 5) 1])) =
      (factoryCreated (callsSince sampleFamily (CreateActors sampleCfg sampleFamily
        [CalculateActorDesc sampleCfg (sampleTransform 2 5) 1]))).map Prod.snd :=
  ⟨(CreateActors_notifies_after_registration sampleCfg sampleFamily
      [CalculateActorDesc sampleCfg (sampleTransform 2 5) 1]).1 [100] 100
      (List.Mem.tail _ (List.Mem.head _)),
    (CreateActors_notifies_after_registration sampleCfg sampleFamily
      [CalculateActorDesc sampleCfg (sampleTransform 2 5) 1]).2.2.1⟩

theorem DestroyActors_destroyed_untracked (l : List BlastActor) :
    ∀ (s : BlastFamilyImpl) (tracked : List BlastActor) (a : BlastActor),
      Call.OnActorDestroyed tracked a ∈ callsSince s (DestroyActors s l) → a ∉ tracked := by
  induction l with
  | nil =>
    intro s tracked a h
    rw [show DestroyActors s [] = s from rfl, callsSince_self] at h
    cases h
  | cons b l ih =>
    intro s tracked a h
    obtain ⟨calls, htr, -⟩ := DestroyActors_spec l (DestroyActorsStep s b)
    rw [DestroyActors_cons,
      callsSince_append s _ _ _ calls (DestroyActorsStep_trace s b) htr] at h
    rcases List.mem_append.1 h with h | h
    · simp only [List.mem_cons, Call.OnActorDestroyed.injEq, List.mem_singleton,
        List.not_mem_nil, or_false, reduceCtorEq] at h
      obtain ⟨rfl, rfl⟩ := h
      intro hin
      exact ((ActorTracker.mem_RemoveActor _ _ _).1 hin).2 rfl
    · rw [← callsSince_eq _ _ calls htr] at h
      exact ih _ tracked a h

theorem DestroyActors_release_after_notification (l : List BlastActor) :
    ∀ (s : BlastFamilyImpl) (pre post : List Call) (a : BlastActor),
      callsSince s (DestroyActors s l) = pre ++ Call.DestroyActor a :: post →
        ∃ (pre2 : List Call) (tracked : List BlastActor),
          pre = pre2 ++ [Call.OnActorDestroyed tracked a] := by
  induction l with
  | nil =>
    intro s pre post a h
    rw [show DestroyActors s [] = s from rfl, callsSince_self] at h
    cases pre <;> cases h
  | cons b l ih =>
    intro s pre post a h
    obtain ⟨calls, htr, -⟩ := DestroyActors_spec l (DestroyActorsStep s b)
    rw [DestroyActors_cons,
      callsSince_append s _ _ _ calls (DestroyActorsStep_trace s b) htr] at h
    match pre, h with
    | [], h => simp at h
    | [x], h =>
      simp only [List.cons_append, List.nil_append, List.cons.injEq] at h
      obtain ⟨rfl, h2, -⟩ := h
      cases h2
      exact ⟨[], _, rfl⟩
    | x :: y :: pre3, h =>
      simp only [List.cons_append, List.nil_append, List.cons.injEq] at h
      obtain ⟨rfl, rfl, h3⟩ := h
      rw [← callsSince_eq _ _ calls htr] at h3
      obtain ⟨pre2, tracked, rfl⟩ := ih _ pre3 post a h3
      exact ⟨_ :: _ :: pre2, tracked, rfl⟩

/-- C13: for every set of actors handed to `DestroyActors`, each `OnActorDestroyed` it
dispatches is for an actor that the tracker, as the listener sees it in that call, no longer
holds; each call of the factory's `DestroyActor` comes right after the destruction notification
of the same actor; the notified and the released actors are those of the set, in its order. -/
theorem DestroyActors_unregisters_before_notifying (s : BlastFamilyImpl)
    (actors : List BlastActor) :
    (∀ (tracked : List BlastActor) (a : BlastActor),
      Call.OnActorDestroyed tracked a ∈ callsSince s (DestroyActors s actors) →
        a ∉ tracked) ∧
    (∀ (pre post : List Call) (a : BlastActor),
      callsSince s (DestroyActors s actors) = pre ++ Call.DestroyActor a :: post →
        ∃ (pre2 : List Call) (tracked : List BlastActor),
          pre = pre2 ++ [Call.OnActorDestroyed tracked a]) ∧
    notifiedDestroyed (callsSince s (DestroyActors s actors)) = actors ∧
    factoryDestroyed (callsSince s (DestroyActors s actors)) = actors := by
  obtain ⟨calls, htr, hnd, hfd, -⟩ := DestroyActors_spec actors s
  refine ⟨DestroyActors_destroyed_untracked actors s,
    DestroyActors_release_after_notification actors s, ?_⟩
  rw [callsSince_eq _ _ calls htr]
  exact ⟨hnd, hfd⟩

/-- Instance of C13: destroying the actor `100` of the spawned sample family notifies with an
empty tracker, and the release of `100` follows that notification. -/
theorem DestroyActors_unregisters_before_notifying_witness :
    (100 : BlastActor) ∉ ([] : List BlastActor) ∧
    (∃ (pre2 : List Call) (tracked : List BlastActor),
      [Call.OnActorDestroyed [] 100] = pre2 ++ [Call.OnActorDestroyed tracked 100]) ∧
    notifiedDestroyed (callsSince sampleSpawned (DestroyActors sampleSpawned [100])) = [100] :=
  ⟨(DestroyActors_unregisters_before_notifying sampleSpawned [100]).1 [] 100
      (List.Mem.head _),
    (DestroyActors_unregisters_before_notifying sampleSpawned [100]).2.1
      [Call.OnActorDestroyed [] 100] [] 100 rfl,
    (DestroyActors_unregisters_before_notifying sampleSpawned [100]).2.2.1⟩

/-! ## Tracked actors and notifications -/

theorem Despawn_of_spawned (s : BlastFamilyImpl) (h : s.m_isSpawned = true) :
    Despawn s =
      { DestroyActors s s.m_actorTracker.GetActors with
        m_tkFamily := (DestroyActors s s.m_actorTracker.GetActors).m_tkFamily.removeListener
        m_isSpawned := false } := by
  simp [Despawn, h]

theorem Despawn_of_unspawned (s : BlastFamilyImpl) (h : s.m_isSpawned = false) :
    Despawn s = s := by
  simp [Despawn, h]

theorem run_invariant (cfg : BlastFamilyDesc) (I : BlastFamilyImpl → Prop)
    (hframe : ∀ s s2 : BlastFamilyImpl, s2.m_actorTracker = s.m_actorTracker →
      s2.trace = s.trace → I s → I s2)
    (hC : ∀ s d, I s → I (CreateActorsStep cfg s d))
    (hD : ∀ s b, I s → I (DestroyActorsStep s b)) (ops : List Op) :
    ∀ s : BlastFamilyImpl, I s → I (run cfg s ops) := by
  have hCs : ∀ (ds : List BlastActorDesc) (s : BlastFamilyImpl), I s →
      I (CreateActors cfg s ds) := by
    intro ds
    induction ds with
    | nil => intro s h; exact h
    | cons d ds ih => intro s h; exact ih _ (hC s d h)
  have hDs : ∀ (l : List BlastActor) (s : BlastFamilyImpl), I s → I (DestroyActors s l) := by
    intro l
    induction l with
    | nil => intro s h; exact h
    | cons b l ih => intro s h; exact ih _ (hD s b h)
  have hSpawn : ∀ (s : BlastFamilyImpl) (t : Transform), I s → I (Spawn cfg s t).2 := by
    intro s t h
    by_cases hs : s.m_isSpawned = true
    · rw [Spawn_of_spawned cfg s t hs]
      exact h
    · rw [Spawn_of_unspawned cfg s t (by simpa using hs)]
      exact hframe
        (CreateActors cfg
          { s with m_initialTransform := t, m_tkFamily := s.m_tkFamily.addListener }
          (CalculateActorsDescFromFamily cfg
            { s with m_initialTransform := t, m_tkFamily := s.m_tkFamily.addListener } t)) _
        rfl rfl (hCs _ _ (hframe s _ rfl rfl h))
  have hDespawn : ∀ s : BlastFamilyImpl, I s → I (Despawn s) := by
    intro s h
    by_cases hs : s.m_isSpawned = true
    · rw [Despawn_of_spawned s hs]
      exact hframe (DestroyActors s s.m_actorTracker.GetActors) _ rfl rfl (hDs _ s h)
    · rw [Despawn_of_unspawned s (by simpa using hs)]
      exact h
  have hDestroy : ∀ (s : BlastFamilyImpl) (b : Option BlastActor), I s →
      I (DestroyActor s b) := by
    intro s b h
    cases b with
    | none => exact h
    | some actor =>
      by_cases hin : actor ∈ s.m_actorTracker.GetActors
      · rw [show DestroyActor s (some actor) = DestroyActors s [actor] by
          simp [DestroyActor, hin]]
        exact hDs _ s h
      · rw [show DestroyActor s (some actor) = s by simp [DestroyActor, hin]]
        exact h
  have hEvent : ∀ (heap : ActorHeap) (s : BlastFamilyImpl) (e : TkEvent), I s →
      I (HandleEvent cfg heap s e) := by
    intro heap s e h
    by_cases hsplit : e.type = TkEventType.Split
    · rw [HandleEvent_of_split cfg heap s e hsplit]
      exact hCs _ _ (hDs _ s h)
    · rw [HandleEvent_of_not_split cfg heap s e hsplit]
      exact h
  have hEvents : ∀ (heap : ActorHeap) (es : List TkEvent) (s : BlastFamilyImpl), I s →
      I (HandleEvents cfg heap s es) := by
    intro heap es
    induction es with
    | nil => intro s h; exact h
    | cons e es ih => intro s h; exact ih _ (hEvent heap s e h)
  induction ops with
  | nil => intro s h; exact h
  | cons op ops ih =>
    intro s h
    apply ih
    cases op with
    | Spawn tkActors transform => exact hSpawn _ transform (hframe s _ rfl rfl h)
    | Despawn => exact hDespawn s h
    | DestroyActor blastActor => exact hDestroy s blastActor h
    | HandleEvents heap events => exact hEvents heap events s h

theorem Accounted_run (cfg : BlastFamilyDesc) (ops : List Op) (s : BlastFamilyImpl)
    (h : Accounted s) : Accounted (run cfg s ops) := by
  refine run_invariant cfg Accounted ?_ ?_ ?_ ops s h
  · intro s s2 h1 h2 hs
    obtain ⟨a, b⟩ := hs
    constructor <;> rw [h2] <;> try rw [h1]
    all_goals assumption
  · intro s d hs
    have htk : (CreateActorsStep cfg s d).m_actorTracker =
        s.m_actorTracker.AddActor (cfg.m_actorFactory.CreateActor s.trace d) := rfl
    have hnc : notifiedCreated (CreateActorsStep cfg s d).trace =
        notifiedCreated s.trace ++ [cfg.m_actorFactory.CreateActor s.trace d] := by
      rw [CreateActorsStep_trace, notifiedCreated_append]
      rfl
    have hfc : (factoryCreated (CreateActorsStep cfg s d).trace).map Prod.snd =
        (factoryCreated s.trace).map Prod.snd ++ [cfg.m_actorFactory.CreateActor s.trace d] := by
      rw [CreateActorsStep_trace, factoryCreated_append, List.map_append]
      rfl
    have hnd : notifiedDestroyed (CreateActorsStep cfg s d).trace = notifiedDestroyed s.trace := by
      rw [CreateActorsStep_trace, notifiedDestroyed_append]
      exact List.append_nil _
    constructor
    · rw [hnc, hfc, hs.notified_created]
    · intro a ha
      rw [hnc, List.mem_append, List.mem_singleton] at ha
      rw [htk, ActorTracker.mem_AddActor, hnd]
      rcases ha with ha | rfl
      · exact (hs.created_accounted a ha).imp Or.inl id
      · exact Or.inl (Or.inr rfl)
  · intro s b hs
    have htk : (DestroyActorsStep s b).m_actorTracker = s.m_actorTracker.RemoveActor b := rfl
    have hnc : notifiedCreated (DestroyActorsStep s b).trace = notifiedCreated s.trace := by
      rw [DestroyActorsStep_trace, notifiedCreated_append]
      exact List.append_nil _
    have hfc : factoryCreated (DestroyActorsStep s b).trace = factoryCreated s.trace := by
      rw [DestroyActorsStep_trace, factoryCreated_append]
      exact List.append_nil _
    have hnd : notifiedDestroyed (DestroyActorsStep s b).trace =
        notifiedDestroyed s.trace ++ [b] := by
      rw [DestroyActorsStep_trace, notifiedDestroyed_append]
      rfl
    constructor
    · rw [hnc, hfc, hs.notified_created]
    · intro a ha
      rw [hnc] at ha
      rw [htk, ActorTracker.mem_RemoveActor, hnd, List.mem_append, List.mem_singleton]
      by_cases hab : a = b
      · exact Or.inr (Or.inr hab)
      · exact (hs.created_accounted a ha).imp (fun h => ⟨h, hab⟩) Or.inl

theorem Accounted_Create (actor : TkActor) (t : Transform) :
    Accounted (BlastFamilyImpl.Create actor t) :=
  ⟨rfl, fun _ ha => (nomatch ha)⟩

theorem freshCfg_freshDistinct : FreshDistinctFactory freshCfg := by
  constructor
  · intro tr actorDesc h
    have := le_sum_of_mem_nat _ _ h
    simp only [freshCfg, freshFactory] at this
    omega
  · intro tr actorDesc h
    have := le_sum_of_mem_nat _ _ h
    simp only [freshCfg, freshFactory] at this
    omega

theorem tracked_alive_run (cfg : BlastFamilyDesc)
    (hfresh : ∀ (tr : List Call) (actorDesc : BlastActorDesc),
      cfg.m_actorFactory.CreateActor tr actorDesc ∉ notifiedDestroyed tr)
    (ops : List Op) (s : BlastFamilyImpl)
    (h : ∀ a ∈ s.m_actorTracker.m_actors,
      a ∈ notifiedCreated s.trace ∧ a ∉ notifiedDestroyed s.trace) :
    ∀ a ∈ (run cfg s ops).m_actorTracker.m_actors,
      a ∈ notifiedCreated (run cfg s ops).trace ∧
        a ∉ notifiedDestroyed (run cfg s ops).trace := by
  refine run_invariant cfg
    (fun s => ∀ a ∈ s.m_actorTracker.m_actors,
      a ∈ notifiedCreated s.trace ∧ a ∉ notifiedDestroyed s.trace) ?_ ?_ ?_ ops s h
  · intro s s2 h1 h2 hs
    simp only [h1, h2]
    exact hs
  · intro s d hs a ha
    have htk : (CreateActorsStep cfg s d).m_actorTracker =
        s.m_actorTracker.AddActor (cfg.m_actorFactory.CreateActor s.trace d) := rfl
    have hnc : notifiedCreated (CreateActorsStep cfg s d).trace =
        notifiedCreated s.trace ++ [cfg.m_actorFactory.CreateActor s.trace d] := by
      rw [CreateActorsStep_trace, notifiedCreated_append]
      rfl
    have hnd : notifiedDestroyed (CreateActorsStep cfg s d).trace = notifiedDestroyed s.trace := by
      rw [CreateActorsStep_trace, notifiedDestroyed_append]
      exact List.append_nil _
    rw [htk, ActorTracker.mem_AddActor] at ha
    rw [hnc, hnd, List.mem_append, List.mem_singleton]
    rcases ha with ha | rfl
    · exact ⟨Or.inl (hs a ha).1, (hs a ha).2⟩
    · exact ⟨Or.inr rfl, hfresh s.trace d⟩
  · intro s b hs a ha
    have htk : (DestroyActorsStep s b).m_actorTracker = s.m_actorTracker.RemoveActor b := rfl
    have hnc : notifiedCreated (DestroyActorsStep s b).trace = notifiedCreated s.trace := by
      rw [DestroyActorsStep_trace, notifiedCreated_append]
      exact List.append_nil _
    have hnd : notifiedDestroyed (DestroyActorsStep s b).trace =
        notifiedDestroyed s.trace ++ [b] := by
      rw [DestroyActorsStep_trace, notifiedDestroyed_append]
      rfl
    rw [htk, ActorTracker.mem_RemoveActor] at ha
    rw [hnc, hnd, List.mem_append, List.mem_singleton]
    refine ⟨(hs a ha.1).1, ?_⟩
    rintro (hd | hab)
    · exact (hs a ha.1).2 hd
    · exact ha.2 hab

/-- C11: starting from a newly constructed family and a factory that returns fresh distinct
actors (never an address it returned before, nor one already notified as destroyed), after
every sequence of `Spawn`, `Despawn`, `DestroyActor` and `HandleEvents` calls, whatever the
events, the tracker holds exactly the actors for which a creation notification has been
dispatched and no destruction notification has been dispatched. -/
theorem tracker_is_created_not_destroyed (cfg : BlastFamilyDesc)
    (hfresh : FreshDistinctFactory cfg) (actor : TkActor) (initialTransform : Transform)
    (ops : List Op) (a : BlastActor) :
    a ∈ (run cfg (BlastFamilyImpl.Create actor initialTransform) ops).m_actorTracker.GetActors ↔
      (a ∈ notifiedCreated (run cfg (BlastFamilyImpl.Create actor initialTransform) ops).trace ∧
        a ∉ notifiedDestroyed
          (run cfg (BlastFamilyImpl.Create actor initialTransform) ops).trace) := by
  have ha := Accounted_run cfg ops _ (Accounted_Create actor initialTransform)
  constructor
  · intro h
    exact tracked_alive_run cfg hfresh.2 ops _
      (fun _ hin => absurd hin (List.not_mem_nil _)) a h
  · rintro ⟨h1, h2⟩
    exact (ha.created_accounted a h1).resolve_right h2

/-- Instance of C11 on a sequence with events that name untracked parents: an event naming the
unknown address `100` before any spawn, spawn (the actor `200` is created), a batch of two
events that both split `200`, the destruction of the unknown actor `999`. The actor `200` has
been notified as created and as destroyed and is not tracked; the last actor created is tracked
and not notified as destroyed. -/
theorem tracker_is_created_not_destroyed_witness :
    (200 ∉ (run freshCfg (BlastFamilyImpl.Create 1 (sampleTransform 1 0))
      [Op.HandleEvents sampleHeap [sampleSplit (some 100) []],
        Op.Spawn [1] (sampleTransform 2 5),
        Op.HandleEvents sampleHeap
          [sampleSplit (some 200) [some 5], sampleSplit (some 200) [some 6]],
        Op.DestroyActor (some 999)]).m_actorTracker.GetActors ∧
      200 ∈ notifiedDestroyed (run freshCfg (BlastFamilyImpl.Create 1 (sampleTransform 1 0))
        [Op.HandleEvents sampleHeap [sampleSplit (some 100) []],
          Op.Spawn [1] (sampleTransform 2 5),
          Op.HandleEvents sampleHeap
            [sampleSplit (some 200) [some 5], sampleSplit (some 200) [some 6]],
          Op.DestroyActor (some 999)]).trace) ∧
    (1400 ∈ (run freshCfg (BlastFamilyImpl.Create 1 (sampleTransform 1 0))
      [Op.HandleEvents sampleHeap [sampleSplit (some 100) []],
        Op.Spawn [1] (sampleTransform 2 5),
        Op.HandleEvents sampleHeap
          [sampleSplit (some 200) [some 5], sampleSplit (some 200) [some 6]],
        Op.DestroyActor (some 999)]).m_actorTracker.GetActors ↔
      (1400 ∈ notifiedCreated (run freshCfg (BlastFamilyImpl.Create 1 (sampleTransform 1 0))
        [Op.HandleEvents sampleHeap [sampleSplit (some 100) []],
          Op.Spawn [1] (sampleTransform 2 5),
          Op.HandleEvents sampleHeap
            [sampleSplit (some 200) [some 5], sampleSplit (some 200) [some 6]],
          Op.DestroyActor (some 999)]).trace ∧
        1400 ∉ notifiedDestroyed
          (run freshCfg (BlastFamilyImpl.Create 1 (sampleTransform 1 0))
            [Op.HandleEvents sampleHeap [sampleSplit (some 100) []],
              Op.Spawn [1] (sampleTransform 2 5),
              Op.HandleEvents sampleHeap
                [sampleSplit (some 200) [some 5], sampleSplit (some 200) [some 6]],
              Op.DestroyActor (some 999)]).trace)) :=
  ⟨by decide,
    tracker_is_created_not_destroyed freshCfg freshCfg_freshDistinct 1 (sampleTransform 1 0)
      _ 1400⟩

/-! ## Destruction of a single actor -/

/-- C14: `DestroyActor` with a null pointer, or with an actor that the tracker does not hold,
returns the state unchanged (tracker, spawned flag and trace: no notification, no call of the
factory). With a tracked actor it makes two calls, the destruction notification of that actor
and its release through the factory; the tracker loses that actor and keeps every other one,
and the spawned flag is unchanged. -/
theorem DestroyActor_checks_membership (s : BlastFamilyImpl) (actor : BlastActor) :
    DestroyActor s none = s ∧
    callsSince s (DestroyActor s none) = [] ∧
    (actor ∉ s.m_actorTracker.GetActors →
      DestroyActor s (some actor) = s ∧ callsSince s (DestroyActor s (some actor)) = []) ∧
    (actor ∈ s.m_actorTracker.GetActors →
      callsSince s (DestroyActor s (some actor)) =
        [Call.OnActorDestroyed (s.m_actorTracker.GetActors.erase actor) actor,
          Call.DestroyActor actor] ∧
      notifiedDestroyed (callsSince s (DestroyActor s (some actor))) = [actor] ∧
      factoryDestroyed (callsSince s (DestroyActor s (some actor))) = [actor] ∧
      (DestroyActor s (some actor)).m_actorTracker.GetActors =
        s.m_actorTracker.GetActors.erase actor ∧
      actor ∉ (DestroyActor s (some actor)).m_actorTracker.GetActors ∧
      (∀ b, b ≠ actor → (b ∈ (DestroyActor s (some actor)).m_actorTracker.GetActors ↔
        b ∈ s.m_actorTracker.GetActors)) ∧
      (DestroyActor s (some actor)).m_isSpawned = s.m_isSpawned) := by
  refine ⟨rfl, callsSince_self s, ?_, ?_⟩
  · intro hnin
    have hD : DestroyActor s (some actor) = s := by simp [DestroyActor, hnin]
    rw [hD]
    exact ⟨rfl, callsSince_self s⟩
  · intro hin
    have hD : DestroyActor s (some actor) = DestroyActorsStep s actor := by
      simp [DestroyActor, hin, DestroyActors]
    have hcalls : callsSince s (DestroyActorsStep s actor) =
        [Call.OnActorDestroyed (s.m_actorTracker.GetActors.erase actor) actor,
          Call.DestroyActor actor] :=
      callsSince_eq _ _ _ (DestroyActorsStep_trace s actor)
    have htk : (DestroyActorsStep s actor).m_actorTracker = s.m_actorTracker.RemoveActor actor :=
      rfl
    rw [hD, hcalls]
    refine ⟨rfl, rfl, rfl, rfl, ?_, ?_, rfl⟩
    · intro h
      rw [htk] at h
      exact ((ActorTracker.mem_RemoveActor _ _ _).1 h).2 rfl
    · intro b hb
      rw [htk]
      show b ∈ (s.m_actorTracker.RemoveActor actor).m_actors ↔ b ∈ s.m_actorTracker.m_actors
      rw [ActorTracker.mem_RemoveActor]
      exact ⟨fun h => h.1, fun h => ⟨h, hb⟩⟩

/-- Instance of C14 on the family that tracks `200` and `400`: the unknown actor `999` is
ignored, the actor `200` is destroyed and `400` stays. -/
theorem DestroyActor_checks_membership_witness :
    DestroyActor sampleTwoActors (some 999) = sampleTwoActors ∧
    (DestroyActor sampleTwoActors (some 200)).m_actorTracker.GetActors =
      sampleTwoActors.m_actorTracker.GetActors.erase 200 ∧
    notifiedDestroyed (callsSince sampleTwoActors (DestroyActor sampleTwoActors (some 200)))
      = [200] :=
  ⟨((DestroyActor_checks_membership sampleTwoActors 999).2.2.1 (by decide)).1,
    ((DestroyActor_checks_membership sampleTwoActors 200).2.2.2 (by decide)).2.2.2.1,
    ((DestroyActor_checks_membership sampleTwoActors 200).2.2.2 (by decide)).2.1⟩

/-! ## Rejected and ignored events -/

theorem HandleEvents_append (cfg : BlastFamilyDesc) (heap : ActorHeap) (s : BlastFamilyImpl)
    (es1 es2 : List TkEvent) :
    HandleEvents cfg heap s (es1 ++ es2) =
      HandleEvents cfg heap (HandleEvents cfg heap s es1) es2 := by
  simp [HandleEvents, List.foldl_append]

theorem HandleEvent_of_rejected (cfg : BlastFamilyDesc) (heap : ActorHeap)
    (s : BlastFamilyImpl) (e : TkEvent)
    (h : e.getPayload = none ∨
      ∃ ev, e.getPayload = some ev ∧ ev.parentData_userData = none) :
    HandleEvent cfg heap s e = s := by
  by_cases hsplit : e.type = TkEventType.Split
  · rw [HandleEvent_of_split cfg heap s e hsplit]
    have hr : HandleSplitEvent cfg heap s e.getPayload [] [] = ([], []) := by
      rcases h with h | ⟨ev, h, hu⟩
      · rw [h]; rfl
      · rw [h]; simp [HandleSplitEvent, hu]
    rw [hr]
    rfl
  · exact HandleEvent_of_not_split cfg heap s e hsplit

/-- C15: a split event whose payload is null, or whose parent user data is null, is rejected as
a whole. `HandleSplitEvent` returns the two containers as it received them, whatever the
children; `HandleEvents` on that event alone returns the state unchanged, so the tracker is
unchanged and no call is made; and a batch that contains the event ends in the same state as
the batch without it. -/
theorem rejected_split_event_skipped (cfg : BlastFamilyDesc) (heap : ActorHeap)
    (s : BlastFamilyImpl) (e : TkEvent) (pre post : List TkEvent)
    (newActorsDesc : List BlastActorDesc) (actorsToDelete : List BlastActor)
    (h : e.getPayload = none ∨
      ∃ ev, e.getPayload = some ev ∧ ev.parentData_userData = none) :
    HandleSplitEvent cfg heap s e.getPayload newActorsDesc actorsToDelete =
      (newActorsDesc, actorsToDelete) ∧
    HandleEvents cfg heap s [e] = s ∧
    callsSince s (HandleEvents cfg heap s [e]) = [] ∧
    HandleEvents cfg heap s (pre ++ e :: post) = HandleEvents cfg heap s (pre ++ post) := by
  have h1 : HandleEvents cfg heap s [e] = s := HandleEvent_of_rejected cfg heap s e h
  refine ⟨?_, h1, by rw [h1]; exact callsSince_self s, ?_⟩
  · rcases h with h | ⟨ev, h, hu⟩
    · rw [h]; rfl
    · rw [h]; simp [HandleSplitEvent, hu]
  · rw [HandleEvents_append, HandleEvents_append, HandleEvents_cons,
      HandleEvent_of_rejected cfg heap _ e h]

/-- Instance of C15 on the family that tracks `200` and `400`: a split event without payload
and a split event of `200` without parent user data, the latter with a child, change nothing,
alone or in a batch. -/
theorem rejected_split_event_skipped_witness :
    HandleEvents sampleCfg sampleHeap sampleTwoActors
      [{ type := TkEventType.Split, payload := none }] = sampleTwoActors ∧
    HandleEvents sampleCfg sampleHeap sampleTwoActors
      ([sampleSplit (some 200) [some 7]] ++ sampleSplit none [some 8] ::
        [sampleSplit (some 400) [some 9]]) =
      HandleEvents sampleCfg sampleHeap sampleTwoActors
        ([sampleSplit (some 200) [some 7]] ++ [sampleSplit (some 400) [some 9]]) :=
  ⟨(rejected_split_event_skipped sampleCfg sampleHeap sampleTwoActors
      { type := TkEventType.Split, payload := none } [] [] [] [] (Or.inl rfl)).2.1,
    (rejected_split_event_skipped sampleCfg sampleHeap sampleTwoActors
      (sampleSplit none [some 8]) [sampleSplit (some 200) [some 7]]
      [sampleSplit (some 400) [some 9]] [] [] (Or.inr ⟨_, rfl, rfl⟩)).2.2.2⟩

theorem HandleEvents_filter_split (cfg : BlastFamilyDesc) (heap : ActorHeap)
    (es : List TkEvent) :
    ∀ s : BlastFamilyImpl,
      HandleEvents cfg heap s es =
        HandleEvents cfg heap s (es.filter fun e => decide (e.type = TkEventType.Split)) := by
  induction es with
  | nil => intro s; rfl
  | cons e es ih =>
    intro s
    by_cases hsplit : e.type = TkEventType.Split
    · rw [List.filter_cons_of_pos (by simpa using hsplit), HandleEvents_cons, HandleEvents_cons,
        ih]
    · rw [List.filter_cons_of_neg (by simpa using hsplit), HandleEvents_cons,
        HandleEvent_of_not_split cfg heap s e hsplit, ih]

/-- C16: events of a kind other than `Split` are ignored. `HandleEvents` on a batch without
`Split` event returns the state unchanged (tracker, spawned flag, initial transform, and no call
made), and on any batch it ends in the state reached on the batch with the other events
removed. -/
theorem non_split_events_ignored (cfg : BlastFamilyDesc) (heap : ActorHeap)
    (s : BlastFamilyImpl) (events : List TkEvent) :
    ((∀ e ∈ events, e.type ≠ TkEventType.Split) →
      HandleEvents cfg heap s events = s ∧
      callsSince s (HandleEvents cfg heap s events) = []) ∧
    HandleEvents cfg heap s events =
      HandleEvents cfg heap s (events.filter fun e => decide (e.type = TkEventType.Split)) := by
  refine ⟨?_, HandleEvents_filter_split cfg heap events s⟩
  intro h
  have hnil : (events.filter fun e => decide (e.type = TkEventType.Split)) = [] := by
    rw [List.filter_eq_nil_iff]
    intro e he
    simpa using h e he
  have hs : HandleEvents cfg heap s events = s := by
    rw [HandleEvents_filter_split, hnil]
    rfl
  rw [hs]
  exact ⟨rfl, callsSince_self s⟩

/-- Instance of C16 on the family that tracks `200` and `400`: a batch of a fracture command
and a joint update, both carrying what would be a valid payload, changes nothing. -/
theorem non_split_events_ignored_witness :
    HandleEvents sampleCfg sampleHeap sampleTwoActors
      [{ type := TkEventType.FractureCommand
         payload := some { parentData_userData := some 200, children := [some 7] } },
       { type := TkEventType.JointUpdate, payload := none }] = sampleTwoActors :=
  ((non_split_events_ignored sampleCfg sampleHeap sampleTwoActors
    [{ type := TkEventType.FractureCommand
       payload := some { parentData_userData := some 200, children := [some 7] } },
     { type := TkEventType.JointUpdate, payload := none }]).1 (by decide)).1

/-! ## Initial descriptors and classification -/

/-- C17: the descriptor `CalculateActorDesc(transform, tkActor)` has zero parent linear velocity
and zero initial angular velocity, position and parent centre of mass equal to the translation
of `transform`, orientation equal to its rotation, scale equal to its uniform scale, and
`m_tkActor` equal to the solver actor given; `CalculateActorsDescFromFamily(transform)` is the
list of these descriptors for the active solver actors of the family, in the order of
`getActors`, all from the same transform. -/
theorem CalculateActorDesc_initial (cfg : BlastFamilyDesc) (s : BlastFamilyImpl)
    (transform : Transform) (tkActor : TkActor) :
    (CalculateActorDesc cfg transform tkActor).m_parentLinearVelocity = Vector3.CreateZero ∧
    (CalculateActorDesc cfg transform tkActor).m_bodyConfiguration.m_initialAngularVelocity =
      Vector3.CreateZero ∧
    (CalculateActorDesc cfg transform tkActor).m_bodyConfiguration.m_position =
      transform.GetTranslation ∧
    (CalculateActorDesc cfg transform tkActor).m_parentCenterOfMass =
      transform.GetTranslation ∧
    (CalculateActorDesc cfg transform tkActor).m_bodyConfiguration.m_orientation =
      transform.GetRotation ∧
    (CalculateActorDesc cfg transform tkActor).m_scale = transform.GetUniformScale ∧
    (CalculateActorDesc cfg transform tkActor).m_tkActor = tkActor ∧
    CalculateActorsDescFromFamily cfg s transform =
      (s.m_tkFamily.getActors s.m_tkFamily.getActorCount).map
        (CalculateActorDesc cfg transform) ∧
    (CalculateActorsDescFromFamily cfg s transform).length = s.m_tkFamily.getActorCount := by
  refine ⟨rfl, rfl, rfl, rfl, rfl, rfl, rfl, ?_, ?_⟩
  · rw [CalculateActorsDescFromFamily_eq]
    simp [TkFamily.getActors, TkFamily.getActorCount]
  · rw [CalculateActorsDescFromFamily_eq]
    simp [TkFamily.getActorCount]

/-- C18: the classification fields of a child descriptor come from the child handle alone: two
calls of `CalculateActorDesc` on the same child and parent transform, with any two parent bodies
and any two values of `parentStatic`, give the same `m_chunkIndices`, `m_isStatic` and
`m_isLeafChunk`, which are the answers of the factory's `CalculateVisibleChunks`,
`CalculateIsStatic` and `CalculateIsLeafChunk` for that child. -/
theorem classification_from_child_handle (cfg : BlastFamilyDesc)
    (parentBody1 parentBody2 : Option SimulatedBody) (parentStatic1 parentStatic2 : Bool)
    (parentTransform : Transform) (tkActor : TkActor) :
    (CalculateActorDescFromParent cfg parentBody1 parentStatic1 parentTransform
      tkActor).m_chunkIndices =
      (CalculateActorDescFromParent cfg parentBody2 parentStatic2 parentTransform
        tkActor).m_chunkIndices ∧
    (CalculateActorDescFromParent cfg parentBody1 parentStatic1 parentTransform
      tkActor).m_isStatic =
      (CalculateActorDescFromParent cfg parentBody2 parentStatic2 parentTransform
        tkActor).m_isStatic ∧
    (CalculateActorDescFromParent cfg parentBody1 parentStatic1 parentTransform
      tkActor).m_isLeafChunk =
      (CalculateActorDescFromParent cfg parentBody2 parentStatic2 parentTransform
        tkActor).m_isLeafChunk ∧
    (CalculateActorDescFromParent cfg parentBody1 parentStatic1 parentTransform
      tkActor).m_chunkIndices = cfg.m_actorFactory.CalculateVisibleChunks tkActor ∧
    (CalculateActorDescFromParent cfg parentBody1 parentStatic1 parentTransform
      tkActor).m_isStatic =
      cfg.m_actorFactory.CalculateIsStatic tkActor
        (cfg.m_actorFactory.CalculateVisibleChunks tkActor) ∧
    (CalculateActorDescFromParent cfg parentBody1 parentStatic1 parentTransform
      tkActor).m_isLeafChunk =
      cfg.m_actorFactory.CalculateIsLeafChunk tkActor
        (cfg.m_actorFactory.CalculateVisibleChunks tkActor) := by
  cases parentBody1 <;> cases parentBody2 <;> cases parentStatic1 <;> cases parentStatic2 <;>
    exact ⟨rfl, rfl, rfl, rfl, rfl, rfl⟩

/-! ## Split events without valid child -/

/-- C20: a split event with a payload and a parent user data `P` marks `P` for destruction
whatever its children: `P` is in the set that `HandleSplitEvent` returns. When the event has no
child, or only null children, `HandleSplitEvent` on empty containers returns no descriptor and
the set that holds `P` alone, and `HandleEvents` on that event makes exactly two calls, the destruction
notification and the release of `P`: no actor is created, the tracker loses `P`, and when `P`
was tracked the tracker shrinks by one. -/
theorem childless_split_destroys_parent (cfg : BlastFamilyDesc) (heap : ActorHeap)
    (s : BlastFamilyImpl) (ev : TkSplitEvent) (P : BlastActor)
    (hP : ev.parentData_userData = some P) :
    (∀ (newActorsDesc : List BlastActorDesc) (actorsToDelete : List BlastActor),
      P ∈ (HandleSplitEvent cfg heap s (some ev) newActorsDesc actorsToDelete).2) ∧
    ((∀ c ∈ ev.children, c = none) →
      HandleSplitEvent cfg heap s (some ev) [] [] = ([], [P]) ∧
      callsSince s (HandleEvents cfg heap s [{ type := TkEventType.Split, payload := some ev }])
        = [Call.OnActorDestroyed (s.m_actorTracker.GetActors.erase P) P, Call.DestroyActor P] ∧
      factoryCreated (callsSince s
        (HandleEvents cfg heap s [{ type := TkEventType.Split, payload := some ev }])) = [] ∧
      (HandleEvents cfg heap s
        [{ type := TkEventType.Split, payload := some ev }]).m_actorTracker.GetActors
        = s.m_actorTracker.GetActors.erase P ∧
      P ∉ (HandleEvents cfg heap s
        [{ type := TkEventType.Split, payload := some ev }]).m_actorTracker.GetActors ∧
      (P ∈ s.m_actorTracker.GetActors →
        (HandleEvents cfg heap s
          [{ type := TkEventType.Split, payload := some ev }]).m_actorTracker.GetActors.length
          + 1 = s.m_actorTracker.GetActors.length)) := by
  constructor
  · intro newActorsDesc actorsToDelete
    simp only [HandleSplitEvent, hP]
    split
    · assumption
    · simp
  · intro hchildren
    have hred : ev.children.reduceOption = [] := by
      apply List.eq_nil_iff_forall_not_mem.2
      intro c hc
      have := hchildren _ (List.reduceOption_mem_iff.1 hc)
      cases this
    have hsplit : HandleSplitEvent cfg heap s (some ev) [] [] = ([], [P]) := by
      apply Prod.ext
      · rw [HandleSplitEvent_fst cfg heap s ev P [] [] hP, hred]
        rfl
      · rw [HandleSplitEvent_fresh_snd]
        simp [hP]
    have hE : HandleEvents cfg heap s [{ type := TkEventType.Split, payload := some ev }] =
        DestroyActorsStep s P := by
      show HandleEvent cfg heap s { type := TkEventType.Split, payload := some ev } = _
      rw [HandleEvent_of_split cfg heap s _ rfl]
      show CreateActors cfg (DestroyActors s (HandleSplitEvent cfg heap s (some ev) [] []).2)
        (HandleSplitEvent cfg heap s (some ev) [] []).1 = _
      rw [hsplit]
      rfl
    have hcalls : callsSince s (DestroyActorsStep s P) =
        [Call.OnActorDestroyed (s.m_actorTracker.GetActors.erase P) P, Call.DestroyActor P] :=
      callsSince_eq _ _ _ (DestroyActorsStep_trace s P)
    have htk : (DestroyActorsStep s P).m_actorTracker.GetActors =
        s.m_actorTracker.GetActors.erase P := rfl
    rw [hE, hcalls, htk]
    refine ⟨hsplit, rfl, rfl, rfl, ?_, ?_⟩
    · intro h
      exact ((s.m_actorTracker.nodup.mem_erase_iff).1 h).1 rfl
    · intro hin
      rw [List.length_erase_of_mem hin]
      have : 0 < s.m_actorTracker.GetActors.length := List.length_pos_of_mem hin
      omega

/-- Instance of C20 on the family that tracks `200` and `400`: the split of `200` into two null
children leaves `400` alone in the tracker. -/
theorem childless_split_destroys_parent_witness :
    (HandleEvents sampleCfg sampleHeap sampleTwoActors
      [{ type := TkEventType.Split
         payload := some { parentData_userData := some 200, children := [none, none] } }]
      ).m_actorTracker.GetActors = sampleTwoActors.m_actorTracker.GetActors.erase 200 ∧
    (HandleEvents sampleCfg sampleHeap sampleTwoActors
      [{ type := TkEventType.Split
         payload := some { parentData_userData := some 200, children := [none, none] } }]
      ).m_actorTracker.GetActors.length + 1 = sampleTwoActors.m_actorTracker.GetActors.length :=
  ⟨((childless_split_destroys_parent sampleCfg sampleHeap sampleTwoActors
      { parentData_userData := some 200, children := [none, none] } 200 rfl).2
      (by decide)).2.2.2.1,
    ((childless_split_destroys_parent sampleCfg sampleHeap sampleTwoActors
      { parentData_userData := some 200, children := [none, none] } 200 rfl).2
      (by decide)).2.2.2.2.2 (by decide)⟩

/-! ## Debug colours -/

/-- C19: in exact arithmetic, for a health fraction `h` between `0` and `1`, `bondHealthColor h`
is `(1, 2h, 0, 1)` when `h < 1/2` and `(2 - 2h, 1, 0, 1)` when `h ≥ 1/2`. It is red at `0`,
yellow at `1/2` and green at `1`, the two segments agree at `1/2`, and every channel lies
between `0` and `1`. -/
theorem bondHealthColor_piecewise (h : ℚ) (h0 : 0 ≤ h) (h1 : h ≤ 1) :
    (h < 1 / 2 → bondHealthColor h = ⟨1, 2 * h, 0, 1⟩) ∧
    (1 / 2 ≤ h → bondHealthColor h = ⟨2 - 2 * h, 1, 0, 1⟩) ∧
    bondHealthColor 0 = ⟨1, 0, 0, 1⟩ ∧
    bondHealthColor (1 / 2) = ⟨1, 1, 0, 1⟩ ∧
    bondHealthColor 1 = ⟨0, 1, 0, 1⟩ ∧
    ((⟨1, 2 * (1 / 2), 0, 1⟩ : Color) = ⟨2 - 2 * (1 / 2), 1, 0, 1⟩) ∧
    (0 ≤ (bondHealthColor h).GetR ∧ (bondHealthColor h).GetR ≤ 1) ∧
    (0 ≤ (bondHealthColor h).GetG ∧ (bondHealthColor h).GetG ≤ 1) ∧
    (0 ≤ (bondHealthColor h).GetB ∧ (bondHealthColor h).GetB ≤ 1) ∧
    (0 ≤ (bondHealthColor h).GetA ∧ (bondHealthColor h).GetA ≤ 1) := by
  have hlow : h < 1 / 2 → bondHealthColor h = ⟨1, 2 * h, 0, 1⟩ := by
    intro hlt
    simp only [bondHealthColor, if_pos hlt, MixColors, Color.GetR, Color.GetG, Color.GetB,
      Color.GetA, Color.mk.injEq]
    refine ⟨by ring, by ring, by ring, by ring⟩
  have hhigh : 1 / 2 ≤ h → bondHealthColor h = ⟨2 - 2 * h, 1, 0, 1⟩ := by
    intro hge
    simp only [bondHealthColor, if_neg (not_lt.2 hge), MixColors, Color.GetR, Color.GetG,
      Color.GetB, Color.GetA, Color.mk.injEq]
    refine ⟨by ring, by ring, by ring, by ring⟩
  refine ⟨hlow, hhigh, ?_, ?_, ?_, ?_, ?_⟩
  · simp [bondHealthColor, MixColors, Color.GetR, Color.GetG, Color.GetB, Color.GetA]
  · rw [bondHealthColor, if_neg (lt_irrefl _)]
    simp only [MixColors, Color.GetR, Color.GetG, Color.GetB, Color.GetA, Color.mk.injEq]
    norm_num
  · rw [bondHealthColor, if_neg (by norm_num)]
    simp only [MixColors, Color.GetR, Color.GetG, Color.GetB, Color.GetA, Color.mk.injEq]
    norm_num
  · simp only [Color.mk.injEq]
    norm_num
  · rcases lt_or_le h (1 / 2) with hlt | hge
    · rw [hlow hlt]
      simp only [Color.GetR, Color.GetG, Color.GetB, Color.GetA]
      refine ⟨⟨by norm_num, by norm_num⟩, ⟨by linarith, by linarith⟩, ⟨by norm_num, by norm_num⟩,
        ⟨by norm_num, by norm_num⟩⟩
    · rw [hhigh hge]
      simp only [Color.GetR, Color.GetG, Color.GetB, Color.GetA]
      refine ⟨⟨by linarith, by linarith⟩, ⟨by norm_num, by norm_num⟩, ⟨by norm_num, by norm_num⟩,
        ⟨by norm_num, by norm_num⟩⟩

/-- Instance of C19 at the health fractions `1/4` and `3/4`. -/
theorem bondHealthColor_piecewise_witness :
    bondHealthColor (1 / 4) = ⟨1, 2 * (1 / 4), 0, 1⟩ ∧
    bondHealthColor (3 / 4) = ⟨2 - 2 * (3 / 4), 1, 0, 1⟩ :=
  ⟨(bondHealthColor_piecewise (1 / 4) (by norm_num) (by norm_num)).1 (by norm_num),
    (bondHealthColor_piecewise (3 / 4) (by norm_num) (by norm_num)).2.1 (by norm_num)⟩

/-! ## The tracker of an unspawned family -/

theorem HandleEvents_isSpawned (cfg : BlastFamilyDesc) (heap : ActorHeap) (es : List TkEvent) :
    ∀ s : BlastFamilyImpl, (HandleEvents cfg heap s es).m_isSpawned = s.m_isSpawned := by
  induction es with
  | nil => intro s; rfl
  | cons e es ih =>
    intro s
    rw [HandleEvents_cons, ih]
    by_cases h : e.type = TkEventType.Split
    · rw [HandleEvent_of_split cfg heap s e h, (CreateActors_frame cfg _ _).1,
        (DestroyActors_frame _ _).1]
    · rw [HandleEvent_of_not_split cfg heap s e h]

theorem Spawn_isSpawned (cfg : BlastFamilyDesc) (s : BlastFamilyImpl) (transform : Transform) :
    (Spawn cfg s transform).2.m_isSpawned = true := by
  by_cases hs : s.m_isSpawned = true
  · rw [Spawn_of_spawned cfg s transform hs]
    exact hs
  · rw [Spawn_of_unspawned cfg s transform (by simpa using hs)]

theorem Despawn_tracker_nil (s : BlastFamilyImpl) (h : s.m_isSpawned = true) :
    (Despawn s).m_isSpawned = false ∧ (Despawn s).m_actorTracker.GetActors = [] := by
  obtain ⟨calls, -, -, -, -, -, hmem⟩ := DestroyActors_spec s.m_actorTracker.GetActors s
  rw [Despawn_of_spawned s h]
  refine ⟨rfl, ?_⟩
  apply List.eq_nil_iff_forall_not_mem.2
  intro a ha
  exact ((hmem a).1 ha).2 ((hmem a).1 ha).1

theorem apply_unspawned_tracker_nil (cfg : BlastFamilyDesc) (s : BlastFamilyImpl) (op : Op)
    (hinv : s.m_isSpawned = false → s.m_actorTracker.GetActors = [])
    (hop : (match op with
      | Op.HandleEvents _ _ => s.m_isSpawned
      | _ => true) = true) :
    (op.apply cfg s).m_isSpawned = false → (op.apply cfg s).m_actorTracker.GetActors = [] := by
  cases op with
  | Spawn tkActors transform =>
    intro h
    have := Spawn_isSpawned cfg
      { s with m_tkFamily := { s.m_tkFamily with m_actors := tkActors } } transform
    rw [show (Op.Spawn tkActors transform).apply cfg s =
      (Spawn cfg { s with m_tkFamily := { s.m_tkFamily with m_actors := tkActors } }
        transform).2 from rfl, this] at h
    cases h
  | Despawn =>
    intro _
    show (Despawn s).m_actorTracker.GetActors = []
    by_cases hs : s.m_isSpawned = true
    · exact (Despawn_tracker_nil s hs).2
    · rw [Despawn_of_unspawned s (by simpa using hs)]
      exact hinv (by simpa using hs)
  | DestroyActor blastActor =>
    show (DestroyActor s blastActor).m_isSpawned = false →
      (DestroyActor s blastActor).m_actorTracker.GetActors = []
    cases blastActor with
    | none => exact hinv
    | some actor =>
      by_cases hin : actor ∈ s.m_actorTracker.GetActors
      · rw [show DestroyActor s (some actor) = DestroyActors s [actor] by
          simp [DestroyActor, hin], (DestroyActors_frame _ _).1]
        intro hs
        rw [hinv hs] at hin
        cases hin
      · rw [show DestroyActor s (some actor) = s by simp [DestroyActor, hin]]
        exact hinv
  | HandleEvents heap events =>
    show (HandleEvents cfg heap s events).m_isSpawned = false → _
    rw [HandleEvents_isSpawned]
    intro hs
    rw [show s.m_isSpawned = true from hop] at hs
    cases hs

theorem run_unspawned_tracker_nil (cfg : BlastFamilyDesc) (ops : List Op) :
    ∀ s : BlastFamilyImpl, (s.m_isSpawned = false → s.m_actorTracker.GetActors = []) →
      eventsWhileSpawned cfg s ops = true →
      (run cfg s ops).m_isSpawned = false → (run cfg s ops).m_actorTracker.GetActors = [] := by
  induction ops with
  | nil => intro s hinv _; exact hinv
  | cons op ops ih =>
    intro s hinv hops
    simp only [eventsWhileSpawned, Bool.and_eq_true] at hops
    exact ih _ (apply_unspawned_tracker_nil cfg s op hinv hops.1) hops.2

theorem eventsWhileSpawned_take (cfg : BlastFamilyDesc) (ops : List Op) :
    ∀ (s : BlastFamilyImpl) (n : Nat), eventsWhileSpawned cfg s ops = true →
      eventsWhileSpawned cfg s (ops.take n) = true := by
  induction ops with
  | nil => intro s n h; simpa using h
  | cons op ops ih =>
    intro s n h
    cases n with
    | zero => rfl
    | succ n =>
      simp only [eventsWhileSpawned, Bool.and_eq_true, List.take_succ_cons] at h ⊢
      exact ⟨h.1, ih _ n h.2⟩

/-- C21: starting from a newly constructed family, for every sequence of `Spawn`, `Despawn`,
`DestroyActor` and `HandleEvents` calls in which `HandleEvents` is only called while the family
is spawned, after the whole sequence and after each of its initial parts, if the spawned flag is
false then the tracker is empty. -/
theorem unspawned_family_tracks_nothing (cfg : BlastFamilyDesc) (actor : TkActor)
    (initialTransform : Transform) (ops : List Op)
    (hops : eventsWhileSpawned cfg (BlastFamilyImpl.Create actor initialTransform) ops = true) :
    ((run cfg (BlastFamilyImpl.Create actor initialTransform) ops).m_isSpawned = false →
      (run cfg (BlastFamilyImpl.Create actor initialTransform) ops).m_actorTracker.GetActors
        = []) ∧
    ∀ n : Nat,
      (run cfg (BlastFamilyImpl.Create actor initialTransform) (ops.take n)).m_isSpawned
        = false →
      (run cfg (BlastFamilyImpl.Create actor initialTransform)
        (ops.take n)).m_actorTracker.GetActors = [] :=
  ⟨run_unspawned_tracker_nil cfg ops _ (fun _ => rfl) hops,
    fun n => run_unspawned_tracker_nil cfg (ops.take n) _ (fun _ => rfl)
      (eventsWhileSpawned_take cfg ops _ n hops)⟩

/-- Instance of C21: spawn, a split of `100` into two children, the destruction of the child
`200`, a destruction of the unknown actor `999`, despawn, spawn. After the first five calls the
family is not spawned and tracks nothing. -/
theorem unspawned_family_tracks_nothing_witness :
    (run sampleCfg (BlastFamilyImpl.Create 1 (sampleTransform 1 0))
      ([Op.Spawn [1] (sampleTransform 2 5),
        Op.HandleEvents sampleHeap [sampleSplit (some 100) [some 5, some 6]],
        Op.DestroyActor (some 200), Op.DestroyActor (some 999), Op.Despawn,
        Op.Spawn [5, 6] (sampleTransform 2 5)].take 5)).m_isSpawned = false ∧
    (run sampleCfg (BlastFamilyImpl.Create 1 (sampleTransform 1 0))
      ([Op.Spawn [1] (sampleTransform 2 5),
        Op.HandleEvents sampleHeap [sampleSplit (some 100) [some 5, some 6]],
        Op.DestroyActor (some 200), Op.DestroyActor (some 999), Op.Despawn,
        Op.Spawn [5, 6] (sampleTransform 2 5)].take 5)).m_actorTracker.GetActors = [] :=
  ⟨by decide,
    (unspawned_family_tracks_nothing sampleCfg 1 (sampleTransform 1 0)
      [Op.Spawn [1] (sampleTransform 2 5),
        Op.HandleEvents sampleHeap [sampleSplit (some 100) [some 5, some 6]],
        Op.DestroyActor (some 200), Op.DestroyActor (some 999), Op.Despawn,
        Op.Spawn [5, 6] (sampleTransform 2 5)] (by decide)).2 5 (by decide)⟩

end Blast
